import Mathlib

/-!
# nrf52-ibeacon: the beacon lifecycle controller of `src/main.c`

A shallow embedding of the controller in `src/main.c`: the static variables
become the fields of `State`, every C function becomes a function
`State → State`, and the calls made to the external collaborators (radio
driver, timer service, indicator service) are appended, in program order, to
the field `calls`.

Conventions.
* `uint8_t` and `uint16_t` values are natural numbers; the wrap-around of
  `m_minor++` and the narrowing casts `(uint8_t)` are written with an explicit
  `%`.
* `m_iterations` is a C `int`; it is an `Int` here.  Its only increment is in
  `advertising_start`, whose only caller runs it under `m_iterations <
  NUM_ITERATIONS`.
* Every collaborator call is taken to return `NRF_SUCCESS`, so that
  `APP_ERROR_CHECK` falls through (a failure is fatal and halts the device).
* Logging (`NRF_LOG_INFO`) has no effect on the state and is left out.
* The iteration limit `NUM_ITERATIONS` is a compile-time constant of the
  source.  The handlers take it as the argument `num_iterations`, and the
  reference configuration instantiates it with `NUM_ITERATIONS = 100`.
-/

namespace Beacon

/-! ## Constants of `src/main.c` -/

/-- Radio transmit power in dBm, `TX_POWER`. -/
def TX_POWER : Int := -16

/-- Unit of the advertising interval in microseconds, `UNIT_0_625_MS` of the SDK. -/
def UNIT_0_625_MS : Nat := 625

/-- The SDK conversion `MSEC_TO_UNITS(TIME, RESOLUTION) = TIME * 1000 / RESOLUTION`. -/
def MSEC_TO_UNITS (time resolution : Nat) : Nat := time * 1000 / resolution

/-- Advertising interval for `BLUETOOTH5 = 0`. -/
def NON_CONNECTABLE_ADV_INTERVAL : Nat := MSEC_TO_UNITS 100 UNIT_0_625_MS

/-- Total length of the information advertised by the beacon. -/
def APP_BEACON_INFO_LENGTH : Nat := 0x17

/-- Length of the manufacturer specific data in the advertisement. -/
def APP_ADV_DATA_LENGTH : Nat := 0x15

/-- Device type tag, `0x02` refers to a beacon. -/
def APP_DEVICE_TYPE : Nat := 0x02

/-- Measured RSSI at one metre. -/
def APP_MEASURED_RSSI : Nat := 0xC3

/-- Company identifier of the manufacturer specific data. -/
def APP_COMPANY_IDENTIFIER : Nat := 0x004c

/-- Major value, two bytes. -/
def APP_MAJOR_VALUE : List Nat := [0x00, 0xCC]

/-- Initial minor value, two bytes. -/
def APP_MINOR_VALUE : List Nat := [0x00, 0x00]

/-- The 16-byte beacon UUID. -/
def APP_BEACON_UUID : List Nat :=
  [0x33, 0x01, 0x3f, 0x7f, 0xcb, 0x46, 0x4d, 0xb6,
   0xb4, 0xbe, 0x54, 0x2c, 0x31, 0x0a, 0x81, 0xeb]

/-- Offset of the minor field inside `m_beacon_info`. -/
def MINOR_OFFSET_IN_BEACON_INFO : Nat := 20

/-- Smallest minor value to cycle through. -/
def MIN_MINOR : Nat := 1

/-- Largest minor value to cycle through. -/
def MAX_MINOR : Nat := 20

/-- Length of an advertisement pulse in milliseconds. -/
def DURATION_TO_ADVERTISE_MSECS : Nat := 3000

/-- Pause between advertisements in milliseconds. -/
def DURATION_BETWEEN_ADV_MSECS : Nat := 20000

/-- Number of iterations of the reference configuration. -/
def NUM_ITERATIONS : Int := 100

/-! ## Data model -/

/-- The two application timers declared with `APP_TIMER_DEF`. -/
inductive app_timer_id where
  | m_advertising_stop_timer
  | m_auto_mode_timer
  deriving DecidableEq, Repr

/-- Timer modes of the timer service. -/
inductive app_timer_mode where
  | APP_TIMER_MODE_SINGLE_SHOT
  | APP_TIMER_MODE_REPEATED
  deriving DecidableEq, Repr

/-- The indications used by the program. -/
inductive bsp_indication_t where
  | BSP_INDICATE_ALERT_OFF
  | BSP_INDICATE_ALERT_2
  deriving DecidableEq, Repr

/-- Events of the board support package: the button event the program reacts
to, and every other event (identified by a number). -/
inductive bsp_event_t where
  | BSP_EVENT_KEY_0
  | other (code : Nat)
  deriving DecidableEq, Repr

/-- The fields of `m_adv_params` that `advertising_init` writes after the
`memset`: non-connectable type, no peer address, any filter policy, the
interval and the timeout. -/
structure ble_gap_adv_params_t where
  nonconn_ind : Bool
  p_peer_addr : Option Nat
  fp_any : Bool
  interval : Nat
  timeout : Nat
  deriving DecidableEq, Repr

/-- The fields of `m_manuf_specific_data`; `data.p_data` always points to
`m_beacon_info`, so only the identifier and the size are kept. -/
structure ble_advdata_manuf_data_t where
  company_identifier : Nat
  size : Nat
  deriving DecidableEq, Repr

/-- A call made to an external collaborator. -/
inductive Call where
  | app_timer_create (t : app_timer_id) (mode : app_timer_mode)
  | app_timer_start (t : app_timer_id) (msecs : Nat)
  | app_timer_stop (t : app_timer_id)
  | bsp_board_leds_off
  | bsp_board_led_on (idx : Nat)
  | bsp_board_led_off (idx : Nat)
  | bsp_indication_set (ind : bsp_indication_t)
  | sd_ble_gap_tx_power_set (dbm : Int)
  | sd_ble_gap_addr_get
  | sd_ble_gap_addr_set (addr : Nat)
  | ble_advdata_set (company_identifier : Nat) (data : List Nat)
  | sd_ble_gap_adv_start (params : Option ble_gap_adv_params_t)
  | sd_ble_gap_adv_stop
  deriving DecidableEq, Repr

/-- The static variables of `src/main.c`, the running state of the two timers
kept by the timer service, and the log of collaborator calls. -/
structure State where
  m_adv_params : Option ble_gap_adv_params_t
  m_advertising : Nat
  m_minor : Nat
  m_addr : Nat
  m_beacon_info : List Nat
  m_manuf_specific_data : Option ble_advdata_manuf_data_t
  m_auto_mode : Nat
  m_iterations : Int
  auto_mode_timer_running : Bool
  advertising_stop_timer_running : Bool
  calls : List Call
  deriving DecidableEq, Repr

/-- The initial contents of `m_beacon_info`. -/
def m_beacon_info_init : List Nat :=
  [APP_DEVICE_TYPE, APP_ADV_DATA_LENGTH] ++ APP_BEACON_UUID ++ APP_MAJOR_VALUE
    ++ APP_MINOR_VALUE ++ [APP_MEASURED_RSSI]

/-- The state given by the static initialisers, before `main` runs. -/
def staticInit : State where
  m_adv_params := none
  m_advertising := 0
  m_minor := 0
  m_addr := 0
  m_beacon_info := m_beacon_info_init
  m_manuf_specific_data := none
  m_auto_mode := 0
  m_iterations := 0
  auto_mode_timer_running := false
  advertising_stop_timer_running := false
  calls := []

/-! ## Collaborators -/

/-- Record a collaborator call. -/
def call (c : Call) (s : State) : State :=
  { s with calls := s.calls ++ [c] }

/-- The timer service starts a timer: the timer is running afterwards. -/
def app_timer_start (t : app_timer_id) (msecs : Nat) (s : State) : State :=
  let s := call (Call.app_timer_start t msecs) s
  match t with
  | app_timer_id.m_advertising_stop_timer => { s with advertising_stop_timer_running := true }
  | app_timer_id.m_auto_mode_timer => { s with auto_mode_timer_running := true }

/-- The timer service stops a timer: the timer is not running afterwards. -/
def app_timer_stop (t : app_timer_id) (s : State) : State :=
  let s := call (Call.app_timer_stop t) s
  match t with
  | app_timer_id.m_advertising_stop_timer => { s with advertising_stop_timer_running := false }
  | app_timer_id.m_auto_mode_timer => { s with auto_mode_timer_running := false }

/-! ## The functions of `src/main.c` -/

/-- The function `advertising_init`: writes the minor field into `m_beacon_info`, hands the
advertising data to the radio and fills `m_adv_params`. -/
def advertising_init (s : State) : State :=
  let manuf : ble_advdata_manuf_data_t :=
    { company_identifier := APP_COMPANY_IDENTIFIER, size := APP_BEACON_INFO_LENGTH }
  let s := { s with m_manuf_specific_data := some manuf }
  let hi : Nat := ((s.m_minor >>> 16) &&& 0xff) % 256
  let s := { s with m_beacon_info := s.m_beacon_info.set MINOR_OFFSET_IN_BEACON_INFO hi }
  let lo : Nat := (s.m_minor &&& 0xff) % 256
  let s := { s with m_beacon_info := s.m_beacon_info.set (MINOR_OFFSET_IN_BEACON_INFO + 1) lo }
  let s := call (Call.ble_advdata_set APP_COMPANY_IDENTIFIER s.m_beacon_info) s
  let params : ble_gap_adv_params_t :=
    { nonconn_ind := true, p_peer_addr := none, fp_any := true,
      interval := NON_CONNECTABLE_ADV_INTERVAL, timeout := 0 }
  { s with m_adv_params := some params }

/-- The function `advertising_stop`: stops the radio and clears the alert indication. -/
def advertising_stop (s : State) : State :=
  let s := call Call.sd_ble_gap_adv_stop s
  call (Call.bsp_indication_set bsp_indication_t.BSP_INDICATE_ALERT_OFF) s

/-- The function `advertising_stop_timer_handler`, handler of the burst timer. -/
def advertising_stop_timer_handler (s : State) : State :=
  let s := { s with m_advertising := 0 }
  advertising_stop s

/-- The function `advertising_start`: starts the radio, counts the iteration and arms the
burst timer. -/
def advertising_start (s : State) : State :=
  let s := call (Call.sd_ble_gap_adv_start s.m_adv_params) s
  let s := { s with m_iterations := s.m_iterations + 1 }
  let s := call (Call.bsp_indication_set bsp_indication_t.BSP_INDICATE_ALERT_2) s
  app_timer_start app_timer_id.m_advertising_stop_timer DURATION_TO_ADVERTISE_MSECS s

/-- The function `stop_auto_mode`. -/
def stop_auto_mode (s : State) : State :=
  let s := { s with m_iterations := 0 }
  let s := { s with m_auto_mode := 0 }
  let s := call (Call.bsp_board_led_off 1) s
  app_timer_stop app_timer_id.m_auto_mode_timer s

/-- The function `start_auto_mode`. -/
def start_auto_mode (s : State) : State :=
  let s := { s with m_auto_mode := 1 }
  let s := { s with m_iterations := 0 }
  let s := call (Call.bsp_board_led_on 1) s
  app_timer_start app_timer_id.m_auto_mode_timer DURATION_BETWEEN_ADV_MSECS s

/-- The function `advertising_start_timer_handler`, handler of the period timer, for the
iteration limit `num_iterations`. -/
def advertising_start_timer_handler (num_iterations : Int) (s : State) : State :=
  if s.m_iterations < num_iterations then
    if s.m_advertising = 0 then
      let s := { s with m_advertising := 1 }
      let s := { s with m_minor := (s.m_minor + 1) % 65536 }
      let s := call (Call.sd_ble_gap_addr_set s.m_addr) s
      let s := if s.m_minor > MAX_MINOR then { s with m_minor := MIN_MINOR } else s
      let s := advertising_init s
      advertising_start s
    else
      s
  else
    stop_auto_mode s

/-- The function `bsp_event_callback`. -/
def bsp_event_callback (bsp_event : bsp_event_t) (s : State) : State :=
  match bsp_event with
  | bsp_event_t.BSP_EVENT_KEY_0 =>
    if s.m_auto_mode = 0 then start_auto_mode s else stop_auto_mode s
  | _ => s

/-- The function `timer_init`: creates the two timers (after `app_timer_init`, which has
no effect on the state). -/
def timer_init (s : State) : State :=
  let s := call (Call.app_timer_create app_timer_id.m_auto_mode_timer
    app_timer_mode.APP_TIMER_MODE_REPEATED) s
  call (Call.app_timer_create app_timer_id.m_advertising_stop_timer
    app_timer_mode.APP_TIMER_MODE_SINGLE_SHOT) s

/-- The function `init_bsp`: the indicator part (registering the callback and enabling the
buttons have no effect on the state). -/
def init_bsp (s : State) : State :=
  call Call.bsp_board_leds_off s

/-- The function `ble_stack_init`: the radio part (the three `nrf_sdh` calls that bring
the stack up are left out); `hw_addr` is the address returned by
`sd_ble_gap_addr_get`. -/
def ble_stack_init (hw_addr : Nat) (s : State) : State :=
  let s := call (Call.sd_ble_gap_tx_power_set TX_POWER) s
  let s := call Call.sd_ble_gap_addr_get s
  { s with m_addr := hw_addr }

/-- The initialisation done by `main` before it enters its idle loop: `timer_init`,
`init_bsp`, `ble_stack_init`, `advertising_init` and the first LED (`log_init` is
left out).  This is the initial state of the event-driven program. -/
def main_init (hw_addr : Nat) : State :=
  let s := timer_init staticInit
  let s := init_bsp s
  let s := ble_stack_init hw_addr s
  let s := advertising_init s
  call (Call.bsp_board_led_on 0) s

/-! ## Events -/

/-- The events the dispatcher delivers to the program. -/
inductive Event where
  | bsp (e : bsp_event_t)
  | auto_mode_timer
  | advertising_stop_timer
  deriving DecidableEq, Repr

/-- The Mode Toggle event. -/
def Event.toggle : Event := Event.bsp bsp_event_t.BSP_EVENT_KEY_0

/-- Delivery of one event: the registered handler runs to completion.  The
burst timer is single-shot, so it is no longer running when its handler is
entered; the period timer is repeated and keeps running. -/
def step (num_iterations : Int) (s : State) : Event → State
  | Event.bsp e => bsp_event_callback e s
  | Event.auto_mode_timer => advertising_start_timer_handler num_iterations s
  | Event.advertising_stop_timer =>
    advertising_stop_timer_handler { s with advertising_stop_timer_running := false }

/-- Delivery of a sequence of events, first event first. -/
def run (num_iterations : Int) (s : State) : List Event → State
  | [] => s
  | e :: es => run num_iterations (step num_iterations s e) es

/-- Whether a collaborator call is a radio start. -/
def Call.isAdvStart : Call → Bool
  | Call.sd_ble_gap_adv_start _ => true
  | _ => false

/-- Whether a collaborator call is a radio stop. -/
def Call.isAdvStop : Call → Bool
  | Call.sd_ble_gap_adv_stop => true
  | _ => false

/-- Number of burst starts (radio starts) issued so far. -/
def burstStarts (s : State) : Nat := s.calls.countP Call.isAdvStart

/-- Number of radio stops issued so far. -/
def burstStops (s : State) : Nat := s.calls.countP Call.isAdvStop

/-- The minor field of a payload read as a big-endian 16-bit number. -/
def decodeMinor (payload : List Nat) : Nat :=
  payload.getD MINOR_OFFSET_IN_BEACON_INFO 0 * 256
    + payload.getD (MINOR_OFFSET_IN_BEACON_INFO + 1) 0

/-- The identities on air: for every radio start of a call log, the minor
field of the advertising data last handed to the radio before it (`cur` is the
data in force at the beginning of the log). -/
def advertisedFrom (cur : List Nat) : List Call → List Nat
  | [] => []
  | Call.ble_advdata_set _ d :: cs => advertisedFrom d cs
  | Call.sd_ble_gap_adv_start _ :: cs => decodeMinor cur :: advertisedFrom cur cs
  | _ :: cs => advertisedFrom cur cs

/-- The identities advertised by the bursts of a state's call log. -/
def advertised (s : State) : List Nat := advertisedFrom [] s.calls

/-- A period-timer firing is delivered only while the period timer is
running: every `auto_mode_timer` event of the run finds it running. -/
def periodTimerRespected (num_iterations : Int) (s : State) : List Event → Prop
  | [] => True
  | e :: es =>
    (e = Event.auto_mode_timer → s.auto_mode_timer_running = true)
      ∧ periodTimerRespected num_iterations (step num_iterations s e) es

/-- Whether a run respects the period timer can be computed. -/
instance periodTimerRespectedDecidable (n : Int) :
    (s : State) → (es : List Event) → Decidable (periodTimerRespected n s es)
  | _, [] => isTrue trivial
  | s, e :: es =>
    have := periodTimerRespectedDecidable n (step n s e) es
    inferInstanceAs (Decidable ((e = Event.auto_mode_timer → s.auto_mode_timer_running = true)
      ∧ periodTimerRespected n (step n s e) es))

/-- The identity after `m_minor++` and the reset above `MAX_MINOR`, as done
by `advertising_start_timer_handler`. -/
def rotate (m : Nat) : Nat :=
  if (m + 1) % 65536 > MAX_MINOR then MIN_MINOR else (m + 1) % 65536

/-- The branch of `advertising_start_timer_handler` that starts a burst. -/
def startBurst (s : State) : State :=
  let s := { s with m_advertising := 1 }
  let s := { s with m_minor := (s.m_minor + 1) % 65536 }
  let s := call (Call.sd_ble_gap_addr_set s.m_addr) s
  let s := if s.m_minor > MAX_MINOR then { s with m_minor := MIN_MINOR } else s
  let s := advertising_init s
  advertising_start s

/-- The event sequence of `n` periods, each followed by the expiry of the
burst timer. -/
def cycles : Nat → List Event
  | 0 => []
  | n + 1 => Event.auto_mode_timer :: Event.advertising_stop_timer :: cycles n

/-- Invariant of the identity: it is in range once a burst has been started,
and still has its initial value 0 before. -/
def MinorInv (s : State) : Prop :=
  (MIN_MINOR ≤ s.m_minor ∧ s.m_minor ≤ MAX_MINOR ∧ 0 < burstStarts s)
    ∨ (s.m_minor = 0 ∧ burstStarts s = 0)

/-- Invariant of runs that respect the period timer: the period timer runs
exactly when auto-mode is Running, and auto-mode Off comes with a counter at
0. -/
def OffInv (s : State) : Prop :=
  (s.auto_mode_timer_running = true ↔ s.m_auto_mode ≠ 0)
    ∧ (s.m_auto_mode = 0 → s.m_iterations = 0)

/-- The rotation order: `b` is the identity that follows `a`. -/
def nextIdentity (a b : Nat) : Prop :=
  b = if a < MAX_MINOR then a + 1 else MIN_MINOR

/-- Invariant of the identities on air: the payload has 23 bytes and carries
the current identity, the identity is at most `MAX_MINOR`, the advertised
identities follow the rotation order, and the last advertised one is the
current identity. -/
def RotInv (s : State) : Prop :=
  s.m_beacon_info.length = 23 ∧ s.m_minor ≤ MAX_MINOR
    ∧ decodeMinor s.m_beacon_info = s.m_minor
    ∧ List.Chain' nextIdentity (advertised s)
    ∧ (∀ a ∈ (advertised s).getLast?, a = s.m_minor)

/-- The rotation as the specification words it: the identity plus one, or
`MIN_MINOR` when the identity plus one exceeds `MAX_MINOR`. -/
def specRotate (v : Nat) : Nat :=
  if v + 1 > MAX_MINOR then MIN_MINOR else v + 1

/-! ## Byte-level lemmas for `advertising_init` -/

/-- The high byte written by `advertising_init` is zero for a 16-bit value. -/
theorem hi_byte_zero (m : Nat) (h : m < 65536) : ((m >>> 16) &&& 0xff) % 256 = 0 := by
  have hz : m >>> 16 = 0 := by
    rw [Nat.shiftRight_eq_div_pow]
    exact Nat.div_eq_of_lt h
  simp [hz]

/-- The low byte written by `advertising_init` is the value modulo 256. -/
theorem lo_byte_mod (m : Nat) : (m &&& 0xff) % 256 = m % 256 := by
  have hm : m &&& 0xff = m % 256 := Nat.and_pow_two_sub_one_eq_mod m 8
  rw [hm, Nat.mod_mod]

/-- The payload after `advertising_init`: two writes into the old payload. -/
theorem advertising_init_beacon_info (s : State) :
    (advertising_init s).m_beacon_info
      = (s.m_beacon_info.set MINOR_OFFSET_IN_BEACON_INFO
          (((s.m_minor >>> 16) &&& 0xff) % 256)).set
          (MINOR_OFFSET_IN_BEACON_INFO + 1) ((s.m_minor &&& 0xff) % 256) := rfl

/-- Reading index 20 after the two writes. -/
theorem getD_set_set_hi (b : List Nat) (hi lo : Nat) (h : b.length = 23) :
    ((b.set 20 hi).set 21 lo).getD 20 0 = hi := by
  simp [List.getD_eq_getElem?_getD, List.getElem?_set, h]

/-- Reading index 21 after the two writes. -/
theorem getD_set_set_lo (b : List Nat) (hi lo : Nat) (h : b.length = 23) :
    ((b.set 20 hi).set 21 lo).getD 21 0 = lo := by
  simp [List.getD_eq_getElem?_getD, List.getElem?_set, h]

/-- The two writes leave every other index alone. -/
theorem getElem?_set_set_other (b : List Nat) (hi lo i : Nat) (h20 : i ≠ 20) (h21 : i ≠ 21) :
    ((b.set 20 hi).set 21 lo)[i]? = b[i]? := by
  rw [List.getElem?_set_ne (Ne.symm h21), List.getElem?_set_ne (Ne.symm h20)]

/-! ## C1: round trip of the identity encoder -/

/-- C1. For a payload of `APP_BEACON_INFO_LENGTH` bytes and an identity
`m_minor` in `[MIN_MINOR, MAX_MINOR]`, after `advertising_init` byte 20 times
256 plus byte 21 of `m_beacon_info` is exactly `m_minor`; the same bytes are in
the advertising data handed to the radio. -/
theorem minor_round_trip (s : State)
    (hlen : s.m_beacon_info.length = APP_BEACON_INFO_LENGTH)
    (hmin : MIN_MINOR ≤ s.m_minor) (hmax : s.m_minor ≤ MAX_MINOR) :
    (advertising_init s).m_beacon_info.getD 20 0 * 256
        + (advertising_init s).m_beacon_info.getD 21 0 = s.m_minor
      ∧ decodeMinor (advertising_init s).m_beacon_info = s.m_minor := by
  have hlen23 : s.m_beacon_info.length = 23 := hlen
  have hmax20 : s.m_minor ≤ 20 := hmax
  have hhi := hi_byte_zero s.m_minor (by omega)
  have hlo : (s.m_minor &&& 0xff) % 256 = s.m_minor := by
    rw [lo_byte_mod]; omega
  have h20 : (advertising_init s).m_beacon_info.getD 20 0 = 0 := by
    rw [advertising_init_beacon_info]
    show ((s.m_beacon_info.set 20 _).set 21 _).getD 20 0 = 0
    rw [getD_set_set_hi _ _ _ hlen23, hhi]
  have h21 : (advertising_init s).m_beacon_info.getD 21 0 = s.m_minor := by
    rw [advertising_init_beacon_info]
    show ((s.m_beacon_info.set 20 _).set 21 _).getD 21 0 = s.m_minor
    rw [getD_set_set_lo _ _ _ hlen23, hlo]
  have hd : decodeMinor (advertising_init s).m_beacon_info
      = (advertising_init s).m_beacon_info.getD 20 0 * 256
        + (advertising_init s).m_beacon_info.getD 21 0 := rfl
  rw [hd, h20, h21]
  omega

/-- Witness of C1 at the state of the static initialisers with identity 20. -/
theorem minor_round_trip_witness :
    (advertising_init { staticInit with m_minor := 20 }).m_beacon_info.getD 20 0 * 256
        + (advertising_init { staticInit with m_minor := 20 }).m_beacon_info.getD 21 0 = 20
      ∧ decodeMinor (advertising_init { staticInit with m_minor := 20 }).m_beacon_info = 20 :=
  minor_round_trip { staticInit with m_minor := 20 } (by decide) (by decide) (by decide)

/-! ## C2: rotation step -/

/-- C2. When the period handler rotates (counter below the limit, burst
Idle) an identity in `[MIN_MINOR, MAX_MINOR]`, the new identity is the old one
plus one below `MAX_MINOR`, and `MIN_MINOR` at `MAX_MINOR`. -/
theorem rotation_step (num_iterations : Int) (s : State)
    (hiter : s.m_iterations < num_iterations) (hidle : s.m_advertising = 0)
    (_hmin : MIN_MINOR ≤ s.m_minor) (hmax : s.m_minor ≤ MAX_MINOR) :
    (advertising_start_timer_handler num_iterations s).m_minor
      = if s.m_minor < MAX_MINOR then s.m_minor + 1 else MIN_MINOR := by
  have hmax20 : s.m_minor ≤ 20 := hmax
  have hmod : (s.m_minor + 1) % 65536 = s.m_minor + 1 := by omega
  by_cases hlt : s.m_minor < 20
  · have hle : ¬ (s.m_minor + 1 > 20) := by omega
    simp [advertising_start_timer_handler, hiter, hidle, hmod, MAX_MINOR, hle, hlt,
      advertising_start, advertising_init, app_timer_start, call]
  · have heq20 : s.m_minor = 20 := by omega
    simp [advertising_start_timer_handler, hiter, hidle, heq20, MAX_MINOR, MIN_MINOR,
      advertising_start, advertising_init, app_timer_start, call]

/-- Witness of C2 at the wrap-around: identity 20 in the reference
configuration rotates to 1. -/
theorem rotation_step_witness :
    (advertising_start_timer_handler NUM_ITERATIONS { staticInit with m_minor := 20 }).m_minor
      = if (20 : Nat) < MAX_MINOR then 20 + 1 else MIN_MINOR :=
  rotation_step NUM_ITERATIONS { staticInit with m_minor := 20 }
    (by decide) (by decide) (by decide) (by decide)

/-! ## Effect of the handlers on the fields -/

/-- The period handler below the limit with an Idle burst starts a burst. -/
theorem handler_start (n : Int) (s : State) (hlt : s.m_iterations < n)
    (hidle : s.m_advertising = 0) :
    advertising_start_timer_handler n s = startBurst s := by
  simp [advertising_start_timer_handler, startBurst, hlt, hidle]

/-- The period handler below the limit during a burst does nothing. -/
theorem handler_skip (n : Int) (s : State) (hlt : s.m_iterations < n)
    (hbusy : s.m_advertising ≠ 0) :
    advertising_start_timer_handler n s = s := by
  simp [advertising_start_timer_handler, hlt, hbusy]

/-- The period handler at the limit stops auto-mode. -/
theorem handler_stop (n : Int) (s : State) (hge : ¬ s.m_iterations < n) :
    advertising_start_timer_handler n s = stop_auto_mode s := by
  simp [advertising_start_timer_handler, hge]

/-- The burst start with the rotation folded into `rotate`. -/
theorem startBurst_eq (s : State) :
    startBurst s = advertising_start (advertising_init
      (call (Call.sd_ble_gap_addr_set s.m_addr)
        { s with m_advertising := 1, m_minor := rotate s.m_minor })) := by
  by_cases h : (s.m_minor + 1) % 65536 > MAX_MINOR
  · simp [startBurst, rotate, h, call]
  · simp [startBurst, rotate, h, call]

theorem startBurst_m_advertising (s : State) : (startBurst s).m_advertising = 1 := by
  rw [startBurst_eq]; rfl

theorem startBurst_m_iterations (s : State) :
    (startBurst s).m_iterations = s.m_iterations + 1 := by
  rw [startBurst_eq]; rfl

theorem startBurst_m_auto_mode (s : State) : (startBurst s).m_auto_mode = s.m_auto_mode := by
  rw [startBurst_eq]; rfl

theorem startBurst_timer (s : State) :
    (startBurst s).auto_mode_timer_running = s.auto_mode_timer_running := by
  rw [startBurst_eq]; rfl

theorem startBurst_m_minor (s : State) : (startBurst s).m_minor = rotate s.m_minor := by
  rw [startBurst_eq]; rfl

theorem startBurst_burstStarts (s : State) :
    burstStarts (startBurst s) = burstStarts s + 1 := by
  rw [startBurst_eq]
  simp [burstStarts, advertising_start, advertising_init, app_timer_start, call,
    List.countP_append, Call.isAdvStart]

theorem startBurst_burstStops (s : State) :
    burstStops (startBurst s) = burstStops s := by
  rw [startBurst_eq]
  simp [burstStops, advertising_start, advertising_init, app_timer_start, call,
    List.countP_append, Call.isAdvStop]

theorem stop_auto_mode_burstStarts (s : State) :
    burstStarts (stop_auto_mode s) = burstStarts s := by
  simp [burstStarts, stop_auto_mode, app_timer_stop, call, List.countP_append, Call.isAdvStart]

theorem stop_auto_mode_burstStops (s : State) :
    burstStops (stop_auto_mode s) = burstStops s := by
  simp [burstStops, stop_auto_mode, app_timer_stop, call, List.countP_append, Call.isAdvStop]

theorem start_auto_mode_burstStarts (s : State) :
    burstStarts (start_auto_mode s) = burstStarts s := by
  simp [burstStarts, start_auto_mode, app_timer_start, call, List.countP_append,
    Call.isAdvStart]

theorem start_auto_mode_burstStops (s : State) :
    burstStops (start_auto_mode s) = burstStops s := by
  simp [burstStops, start_auto_mode, app_timer_start, call, List.countP_append, Call.isAdvStop]

theorem stop_handler_burstStarts (n : Int) (s : State) :
    burstStarts (step n s Event.advertising_stop_timer) = burstStarts s := by
  simp [step, burstStarts, advertising_stop_timer_handler, advertising_stop, call,
    List.countP_append, Call.isAdvStart]

theorem stop_handler_burstStops (n : Int) (s : State) :
    burstStops (step n s Event.advertising_stop_timer) = burstStops s + 1 := by
  simp [step, burstStops, advertising_stop_timer_handler, advertising_stop, call,
    List.countP_append, Call.isAdvStop]

theorem bsp_burstStarts (e : bsp_event_t) (s : State) :
    burstStarts (bsp_event_callback e s) = burstStarts s := by
  cases e with
  | BSP_EVENT_KEY_0 =>
    by_cases h : s.m_auto_mode = 0
    · simp [bsp_event_callback, h, start_auto_mode_burstStarts]
    · simp [bsp_event_callback, h, stop_auto_mode_burstStarts]
  | other c => rfl

theorem bsp_burstStops (e : bsp_event_t) (s : State) :
    burstStops (bsp_event_callback e s) = burstStops s := by
  cases e with
  | BSP_EVENT_KEY_0 =>
    by_cases h : s.m_auto_mode = 0
    · simp [bsp_event_callback, h, start_auto_mode_burstStops]
    · simp [bsp_event_callback, h, stop_auto_mode_burstStops]
  | other c => rfl

theorem bsp_m_advertising (e : bsp_event_t) (s : State) :
    (bsp_event_callback e s).m_advertising = s.m_advertising := by
  cases e with
  | BSP_EVENT_KEY_0 =>
    by_cases h : s.m_auto_mode = 0
    · simp [bsp_event_callback, h]; rfl
    · simp [bsp_event_callback, h]; rfl
  | other c => rfl

theorem bsp_m_minor (e : bsp_event_t) (s : State) :
    (bsp_event_callback e s).m_minor = s.m_minor := by
  cases e with
  | BSP_EVENT_KEY_0 =>
    by_cases h : s.m_auto_mode = 0
    · simp [bsp_event_callback, h]; rfl
    · simp [bsp_event_callback, h]; rfl
  | other c => rfl

theorem run_append (n : Int) (s : State) (es fs : List Event) :
    run n s (es ++ fs) = run n (run n s es) fs := by
  induction es generalizing s with
  | nil => rfl
  | cons e es ih => exact ih (step n s e)

/-- After `k` cycles (period firing, burst-timer expiry) from a state with an
Idle burst and room for `k` iterations below the limit, `k` bursts have been
started and the counter has advanced by `k`. -/
theorem run_cycles (n : Int) (k : Nat) (s : State) (hidle : s.m_advertising = 0)
    (hroom : s.m_iterations + (k : Int) ≤ n) :
    (run n s (cycles k)).m_advertising = 0
      ∧ (run n s (cycles k)).m_iterations = s.m_iterations + (k : Int)
      ∧ (run n s (cycles k)).m_auto_mode = s.m_auto_mode
      ∧ burstStarts (run n s (cycles k)) = burstStarts s + k := by
  induction k generalizing s with
  | zero => exact ⟨hidle, by simp [cycles, run], rfl, rfl⟩
  | succ k ih =>
    have hlt : s.m_iterations < n := by push_cast at hroom; omega
    have hrun : run n s (cycles (k + 1))
        = run n (step n (startBurst s) Event.advertising_stop_timer) (cycles k) := by
      show run n (step n (step n s Event.auto_mode_timer) Event.advertising_stop_timer)
        (cycles k) = _
      have hs : step n s Event.auto_mode_timer = startBurst s := handler_start n s hlt hidle
      rw [hs]
    have hit : (step n (startBurst s) Event.advertising_stop_timer).m_iterations
        = s.m_iterations + 1 := startBurst_m_iterations s
    have hmode : (step n (startBurst s) Event.advertising_stop_timer).m_auto_mode
        = s.m_auto_mode := startBurst_m_auto_mode s
    have hbs : burstStarts (step n (startBurst s) Event.advertising_stop_timer)
        = burstStarts s + 1 := by
      rw [stop_handler_burstStarts, startBurst_burstStarts]
    obtain ⟨h1, h2, h3, h4⟩ := ih (step n (startBurst s) Event.advertising_stop_timer) rfl
      (by rw [hit]; push_cast at hroom; omega)
    rw [hrun]
    refine ⟨h1, ?_, ?_, ?_⟩
    · rw [h2, hit]; push_cast; omega
    · rw [h3, hmode]
    · rw [h4, hbs]; omega

/-- The rotated identity is in range when the old one is at most `MAX_MINOR`. -/
theorem rotate_range (m : Nat) (h : m ≤ MAX_MINOR) :
    MIN_MINOR ≤ rotate m ∧ rotate m ≤ MAX_MINOR := by
  have h20 : m ≤ 20 := h
  have hmod : (m + 1) % 65536 = m + 1 := by omega
  unfold rotate
  rw [hmod]
  simp only [MAX_MINOR, MIN_MINOR]
  split <;> omega

/-- The period handler either starts a burst, or leaves the state alone, or
stops auto-mode. -/
theorem handler_cases (n : Int) (s : State) :
    (s.m_iterations < n ∧ s.m_advertising = 0
        ∧ advertising_start_timer_handler n s = startBurst s)
      ∨ (s.m_iterations < n ∧ s.m_advertising ≠ 0 ∧ advertising_start_timer_handler n s = s)
      ∨ (¬ s.m_iterations < n ∧ advertising_start_timer_handler n s = stop_auto_mode s) := by
  by_cases hlt : s.m_iterations < n
  · by_cases hidle : s.m_advertising = 0
    · exact Or.inl ⟨hlt, hidle, handler_start n s hlt hidle⟩
    · exact Or.inr (Or.inl ⟨hlt, hidle, handler_skip n s hlt hidle⟩)
  · exact Or.inr (Or.inr ⟨hlt, handler_stop n s hlt⟩)

/-- One event keeps `MinorInv`. -/
theorem minorInv_step (n : Int) (s : State) (e : Event) (hinv : MinorInv s) :
    MinorInv (step n s e) := by
  cases e with
  | bsp b =>
    show MinorInv (bsp_event_callback b s)
    unfold MinorInv
    rw [bsp_m_minor, bsp_burstStarts]
    exact hinv
  | auto_mode_timer =>
    show MinorInv (advertising_start_timer_handler n s)
    rcases handler_cases n s with ⟨_, _, h⟩ | ⟨_, _, h⟩ | ⟨_, h⟩
    · rw [h]
      have hle : s.m_minor ≤ MAX_MINOR := by
        rcases hinv with ⟨_, h2, _⟩ | ⟨h0, _⟩
        · exact h2
        · rw [h0]; decide
      have hr := rotate_range s.m_minor hle
      left
      rw [startBurst_m_minor, startBurst_burstStarts]
      exact ⟨hr.1, hr.2, Nat.succ_pos _⟩
    · rw [h]; exact hinv
    · rw [h]
      unfold MinorInv
      rw [stop_auto_mode_burstStarts]
      exact hinv
  | advertising_stop_timer =>
    unfold MinorInv
    rw [stop_handler_burstStarts]
    exact hinv

/-- A run keeps `MinorInv`. -/
theorem minorInv_run (n : Int) (es : List Event) (s : State) (hinv : MinorInv s) :
    MinorInv (run n s es) := by
  induction es generalizing s with
  | nil => exact hinv
  | cons e es ih => exact ih (step n s e) (minorInv_step n s e hinv)

/-- The state after boot satisfies `MinorInv`: identity 0, no burst started. -/
theorem minorInv_main_init (hw_addr : Nat) : MinorInv (main_init hw_addr) :=
  Or.inr ⟨rfl, rfl⟩

/-! ## C4: identity range -/

/-- C4, as stated, fails: after boot, and still after a Mode Toggle, the
identity is 0, below `MIN_MINOR`. -/
theorem minor_range_counterexample :
    ¬ (MIN_MINOR ≤ (run NUM_ITERATIONS (main_init 0) []).m_minor
        ∧ (run NUM_ITERATIONS (main_init 0) []).m_minor ≤ MAX_MINOR)
      ∧ ¬ (MIN_MINOR ≤ (run NUM_ITERATIONS (main_init 0) [Event.toggle]).m_minor
        ∧ (run NUM_ITERATIONS (main_init 0) [Event.toggle]).m_minor ≤ MAX_MINOR) := by
  decide

/-- C4, amended. In every state reachable from the state after boot by any
sequence of events, for any iteration limit and device address: either a burst
has been started and the identity lies in `[MIN_MINOR, MAX_MINOR]`, or no burst
has been started yet and the identity still has its initial value 0. -/
theorem minor_range_reachable (num_iterations : Int) (hw_addr : Nat) (es : List Event) :
    (MIN_MINOR ≤ (run num_iterations (main_init hw_addr) es).m_minor
        ∧ (run num_iterations (main_init hw_addr) es).m_minor ≤ MAX_MINOR
        ∧ 0 < burstStarts (run num_iterations (main_init hw_addr) es))
      ∨ ((run num_iterations (main_init hw_addr) es).m_minor = 0
        ∧ burstStarts (run num_iterations (main_init hw_addr) es) = 0) :=
  minorInv_run num_iterations es (main_init hw_addr) (minorInv_main_init hw_addr)

/-! ## C5: payload layout and frame -/

/-- The period handler changes the payload at most at indices 20 and 21. -/
theorem step_beacon_info_other (n : Int) (s : State) (e : Event) (i : Nat)
    (h20 : i ≠ 20) (h21 : i ≠ 21) :
    (step n s e).m_beacon_info[i]? = s.m_beacon_info[i]? := by
  cases e with
  | bsp b =>
    cases b with
    | BSP_EVENT_KEY_0 =>
      show (bsp_event_callback bsp_event_t.BSP_EVENT_KEY_0 s).m_beacon_info[i]? = _
      by_cases h : s.m_auto_mode = 0
      · simp [bsp_event_callback, h]; rfl
      · simp [bsp_event_callback, h]; rfl
    | other c => rfl
  | auto_mode_timer =>
    show (advertising_start_timer_handler n s).m_beacon_info[i]? = _
    rcases handler_cases n s with ⟨_, _, h⟩ | ⟨_, _, h⟩ | ⟨_, h⟩
    · rw [h, startBurst_eq]
      exact getElem?_set_set_other _ _ _ i h20 h21
    · rw [h]
    · rw [h]; rfl
  | advertising_stop_timer => rfl

/-- A run changes the payload at most at indices 20 and 21. -/
theorem run_beacon_info_other (n : Int) (es : List Event) (s : State) (i : Nat)
    (h20 : i ≠ 20) (h21 : i ≠ 21) :
    (run n s es).m_beacon_info[i]? = s.m_beacon_info[i]? := by
  induction es generalizing s with
  | nil => rfl
  | cons e es ih =>
    show (run n (step n s e) es).m_beacon_info[i]? = _
    rw [ih (step n s e), step_beacon_info_other n s e i h20 h21]

/-- C5. For every value `v` of `m_minor`, the payload after `advertising_init`
on the initial `m_beacon_info` has `APP_BEACON_INFO_LENGTH = 23` bytes: byte 0
is 0x02, byte 1 is 0x15, bytes 2..17 are `APP_BEACON_UUID`, bytes 18..19 are
0x00, 0xCC and byte 22 is 0xC3.  For every state `s`, `advertising_init` keeps
the length of the payload and every index `i` other than 20 and 21, and so does
every run from boot.  `MINOR_OFFSET_IN_BEACON_INFO = 20` is where the two-byte
minor field starts in the layout type, length, UUID, major, minor, RSSI. -/
theorem payload_layout_and_frame (v : Nat) (s : State) (i : Nat)
    (num_iterations : Int) (hw_addr : Nat) (es : List Event)
    (h20 : i ≠ MINOR_OFFSET_IN_BEACON_INFO) (h21 : i ≠ MINOR_OFFSET_IN_BEACON_INFO + 1) :
    ((advertising_init { staticInit with m_minor := v }).m_beacon_info.length
          = APP_BEACON_INFO_LENGTH
        ∧ APP_BEACON_INFO_LENGTH = 23
        ∧ (advertising_init { staticInit with m_minor := v }).m_beacon_info.take 20
          = [0x02, 0x15] ++ APP_BEACON_UUID ++ [0x00, 0xCC]
        ∧ (advertising_init { staticInit with m_minor := v }).m_beacon_info.drop 22 = [0xC3])
      ∧ ((advertising_init s).m_beacon_info[i]? = s.m_beacon_info[i]?
        ∧ (advertising_init s).m_beacon_info.length = s.m_beacon_info.length)
      ∧ ((run num_iterations (main_init hw_addr) es).m_beacon_info[i]? = m_beacon_info_init[i]?
        ∧ (run num_iterations (main_init hw_addr) es).m_beacon_info.length
          = APP_BEACON_INFO_LENGTH)
      ∧ (MINOR_OFFSET_IN_BEACON_INFO
          = [APP_DEVICE_TYPE].length + [APP_ADV_DATA_LENGTH].length + APP_BEACON_UUID.length
            + APP_MAJOR_VALUE.length
        ∧ m_beacon_info_init
          = [APP_DEVICE_TYPE] ++ [APP_ADV_DATA_LENGTH] ++ APP_BEACON_UUID ++ APP_MAJOR_VALUE
            ++ APP_MINOR_VALUE ++ [APP_MEASURED_RSSI]
        ∧ APP_BEACON_UUID.length = 16 ∧ APP_MAJOR_VALUE.length = 2
        ∧ APP_MINOR_VALUE.length = 2) := by
  have h20' : i ≠ 20 := h20
  have h21' : i ≠ 21 := h21
  refine ⟨⟨rfl, rfl, rfl, rfl⟩, ⟨?_, ?_⟩, ⟨?_, ?_⟩, ⟨rfl, rfl, rfl, rfl, rfl⟩⟩
  · rw [advertising_init_beacon_info]
    exact getElem?_set_set_other _ _ _ i h20' h21'
  · rw [advertising_init_beacon_info]
    simp
  · rw [run_beacon_info_other _ _ _ i h20' h21']
    exact getElem?_set_set_other m_beacon_info_init _ _ i h20' h21'
  · have h22 := run_beacon_info_other num_iterations es (main_init hw_addr) 22
      (by decide) (by decide)
    have h23 := run_beacon_info_other num_iterations es (main_init hw_addr) 23
      (by decide) (by decide)
    have i22 : (main_init hw_addr).m_beacon_info[22]? = some 0xC3 := rfl
    have i23 : (main_init hw_addr).m_beacon_info[23]? = none := rfl
    rw [i22] at h22
    rw [i23] at h23
    have hlt : 22 < (run num_iterations (main_init hw_addr) es).m_beacon_info.length := by
      by_contra hc
      rw [List.getElem?_eq_none (Nat.le_of_not_lt hc)] at h22
      exact absurd h22 (by simp)
    have hle : (run num_iterations (main_init hw_addr) es).m_beacon_info.length ≤ 23 :=
      List.getElem?_eq_none_iff.mp h23
    show _ = 23
    omega

/-- Witness of C5: identity 7, the state after boot, index 22. -/
theorem payload_layout_and_frame_witness :
    (advertising_init { staticInit with m_minor := 7 }).m_beacon_info
        = [0x02, 0x15] ++ APP_BEACON_UUID ++ [0x00, 0xCC] ++ [0, 7] ++ [0xC3]
      ∧ (advertising_init (main_init 0)).m_beacon_info[22]? = (main_init 0).m_beacon_info[22]?
      ∧ (run NUM_ITERATIONS (main_init 0) (Event.toggle :: cycles 2)).m_beacon_info[22]?
        = m_beacon_info_init[22]? :=
  ⟨by decide,
   (payload_layout_and_frame 7 (main_init 0) 22 NUM_ITERATIONS 0 (Event.toggle :: cycles 2)
      (by decide) (by decide)).2.1.1,
   (payload_layout_and_frame 7 (main_init 0) 22 NUM_ITERATIONS 0 (Event.toggle :: cycles 2)
      (by decide) (by decide)).2.2.1.1⟩

/-! ## C6: no burst start while Advertising -/

/-- An event that issues a radio start is a period firing that found the burst
Idle, and it leaves the burst Advertising. -/
theorem start_only_when_idle (n : Int) (s : State) (e : Event)
    (hstart : burstStarts s < burstStarts (step n s e)) :
    s.m_advertising = 0 ∧ e = Event.auto_mode_timer ∧ (step n s e).m_advertising = 1 := by
  cases e with
  | bsp b =>
    have h : burstStarts (step n s (Event.bsp b)) = burstStarts s := bsp_burstStarts b s
    rw [h] at hstart
    exact absurd hstart (lt_irrefl _)
  | auto_mode_timer =>
    have hs : step n s Event.auto_mode_timer = advertising_start_timer_handler n s := rfl
    rw [hs] at hstart ⊢
    rcases handler_cases n s with ⟨_, hidle, h⟩ | ⟨_, _, h⟩ | ⟨_, h⟩
    · rw [h]
      exact ⟨hidle, rfl, startBurst_m_advertising s⟩
    · rw [h] at hstart
      exact absurd hstart (lt_irrefl _)
    · rw [h, stop_auto_mode_burstStarts] at hstart
      exact absurd hstart (lt_irrefl _)
  | advertising_stop_timer =>
    rw [stop_handler_burstStarts] at hstart
    exact absurd hstart (lt_irrefl _)

/-- An event other than the burst-timer expiry leaves an Advertising burst
state as it is. -/
theorem advertising_kept (n : Int) (s : State) (e : Event)
    (hne : e ≠ Event.advertising_stop_timer) (hadv : s.m_advertising ≠ 0) :
    (step n s e).m_advertising = s.m_advertising := by
  cases e with
  | bsp b => exact bsp_m_advertising b s
  | auto_mode_timer =>
    show (advertising_start_timer_handler n s).m_advertising = _
    rcases handler_cases n s with ⟨_, hidle, _⟩ | ⟨_, _, h⟩ | ⟨_, h⟩
    · exact absurd hidle hadv
    · rw [h]
    · rw [h]; rfl
  | advertising_stop_timer => exact absurd rfl hne

/-- A run without burst-timer expiry leaves an Advertising burst state as it
is. -/
theorem advertising_kept_run (n : Int) (es : List Event) (s : State)
    (hne : Event.advertising_stop_timer ∉ es) (hadv : s.m_advertising ≠ 0) :
    (run n s es).m_advertising = s.m_advertising := by
  induction es generalizing s with
  | nil => rfl
  | cons e es ih =>
    have he : e ≠ Event.advertising_stop_timer := fun h =>
      hne (h ▸ List.mem_cons_self e es)
    have hes : Event.advertising_stop_timer ∉ es := fun h =>
      hne (List.mem_cons_of_mem e h)
    have h1 := advertising_kept n s e he hadv
    show (run n (step n s e) es).m_advertising = _
    rw [ih (step n s e) hes (by rw [h1]; exact hadv), h1]

/-- C6. Along every event sequence from the state after boot: if the event `e`
delivered after the events `pre` starts a burst, then the burst state before
`e` was Idle (`m_advertising = 0`) and `e` is a period firing; and if, after the
further events `mid`, the event `e2` starts the next burst, then `mid` contains
a burst-timer expiry. -/
theorem no_start_while_advertising (num_iterations : Int) (hw_addr : Nat)
    (pre : List Event) (e : Event) (mid : List Event) (e2 : Event)
    (hstart : burstStarts (run num_iterations (main_init hw_addr) pre)
      < burstStarts (step num_iterations (run num_iterations (main_init hw_addr) pre) e)) :
    (run num_iterations (main_init hw_addr) pre).m_advertising = 0
      ∧ e = Event.auto_mode_timer
      ∧ (burstStarts (run num_iterations
            (step num_iterations (run num_iterations (main_init hw_addr) pre) e) mid)
          < burstStarts (step num_iterations (run num_iterations
            (step num_iterations (run num_iterations (main_init hw_addr) pre) e) mid) e2) →
        Event.advertising_stop_timer ∈ mid) := by
  obtain ⟨h0, he, h1⟩ := start_only_when_idle _ _ _ hstart
  refine ⟨h0, he, ?_⟩
  intro hstart2
  by_contra hmid
  have hk := advertising_kept_run num_iterations mid _ hmid (by rw [h1]; decide)
  have h2 := (start_only_when_idle _ _ _ hstart2).1
  rw [hk, h1] at h2
  exact absurd h2 (by decide)

/-- Witness of C6: after boot and a Mode Toggle, the first period firing starts
a burst. -/
theorem no_start_while_advertising_witness :
    burstStarts (run NUM_ITERATIONS (main_init 0) [Event.toggle])
        < burstStarts (step NUM_ITERATIONS (run NUM_ITERATIONS (main_init 0) [Event.toggle])
            Event.auto_mode_timer)
      ∧ (run NUM_ITERATIONS (main_init 0) [Event.toggle]).m_advertising = 0
      ∧ Event.auto_mode_timer = Event.auto_mode_timer
      ∧ (burstStarts (run NUM_ITERATIONS
            (step NUM_ITERATIONS (run NUM_ITERATIONS (main_init 0) [Event.toggle])
              Event.auto_mode_timer) [Event.advertising_stop_timer])
          < burstStarts (step NUM_ITERATIONS (run NUM_ITERATIONS
            (step NUM_ITERATIONS (run NUM_ITERATIONS (main_init 0) [Event.toggle])
              Event.auto_mode_timer) [Event.advertising_stop_timer]) Event.auto_mode_timer) →
        Event.advertising_stop_timer ∈ [Event.advertising_stop_timer]) :=
  ⟨by decide,
   no_start_while_advertising NUM_ITERATIONS 0 [Event.toggle] Event.auto_mode_timer
     [Event.advertising_stop_timer] Event.auto_mode_timer (by decide)⟩

/-! ## C7: period firing during a burst -/

/-- The state after boot, a Mode Toggle, 99 full cycles and the 100th period
firing: auto-mode Running, burst Advertising, counter at the limit, 100 bursts
started. -/
theorem state_at_limit :
    (run NUM_ITERATIONS (main_init 0)
        (Event.toggle :: (cycles 99 ++ [Event.auto_mode_timer]))).m_auto_mode = 1
      ∧ (run NUM_ITERATIONS (main_init 0)
        (Event.toggle :: (cycles 99 ++ [Event.auto_mode_timer]))).m_advertising = 1
      ∧ (run NUM_ITERATIONS (main_init 0)
        (Event.toggle :: (cycles 99 ++ [Event.auto_mode_timer]))).m_iterations = 100
      ∧ burstStarts (run NUM_ITERATIONS (main_init 0)
        (Event.toggle :: (cycles 99 ++ [Event.auto_mode_timer]))) = 100 := by
  have hrun : run NUM_ITERATIONS (main_init 0)
      (Event.toggle :: (cycles 99 ++ [Event.auto_mode_timer]))
      = step NUM_ITERATIONS (run NUM_ITERATIONS (start_auto_mode (main_init 0)) (cycles 99))
          Event.auto_mode_timer := by
    show run NUM_ITERATIONS (step NUM_ITERATIONS (main_init 0) Event.toggle) _ = _
    rw [run_append]
    rfl
  obtain ⟨h1, h2, h3, h4⟩ := run_cycles NUM_ITERATIONS 99 (start_auto_mode (main_init 0)) rfl
    (by decide)
  have hit : (run NUM_ITERATIONS (start_auto_mode (main_init 0)) (cycles 99)).m_iterations
      = 99 := by rw [h2]; rfl
  have hlt : (run NUM_ITERATIONS (start_auto_mode (main_init 0)) (cycles 99)).m_iterations
      < NUM_ITERATIONS := by rw [hit]; decide
  have hs : step NUM_ITERATIONS (run NUM_ITERATIONS (start_auto_mode (main_init 0)) (cycles 99))
      Event.auto_mode_timer
      = startBurst (run NUM_ITERATIONS (start_auto_mode (main_init 0)) (cycles 99)) :=
    handler_start _ _ hlt h1
  rw [hrun, hs, startBurst_m_auto_mode, startBurst_m_advertising, startBurst_m_iterations,
    startBurst_burstStarts, h3, h4, hit]
  exact ⟨rfl, rfl, rfl, rfl⟩

/-- C7, as stated, fails: in the reachable state after the 100th burst start
(auto-mode Running, burst Advertising, `m_iterations = 100`) the period handler
resets the counter to 0. -/
theorem period_during_burst_counterexample :
    (run NUM_ITERATIONS (main_init 0)
        (Event.toggle :: (cycles 99 ++ [Event.auto_mode_timer]))).m_auto_mode = 1
      ∧ (run NUM_ITERATIONS (main_init 0)
        (Event.toggle :: (cycles 99 ++ [Event.auto_mode_timer]))).m_advertising ≠ 0
      ∧ (advertising_start_timer_handler NUM_ITERATIONS
          (run NUM_ITERATIONS (main_init 0)
            (Event.toggle :: (cycles 99 ++ [Event.auto_mode_timer])))).m_iterations
        ≠ (run NUM_ITERATIONS (main_init 0)
            (Event.toggle :: (cycles 99 ++ [Event.auto_mode_timer]))).m_iterations := by
  obtain ⟨h1, h2, h3, _⟩ := state_at_limit
  refine ⟨h1, by rw [h2]; decide, ?_⟩
  have hge : ¬ (run NUM_ITERATIONS (main_init 0)
      (Event.toggle :: (cycles 99 ++ [Event.auto_mode_timer]))).m_iterations
        < NUM_ITERATIONS := by rw [h3]; decide
  rw [handler_stop _ _ hge, h3]
  show (0 : Int) ≠ 100
  decide

/-- C7, amended. In a state with auto-mode Running and the burst Advertising:
a period firing below the limit (`m_iterations < NUM_ITERATIONS`) leaves the
whole state unchanged, so it starts no burst and keeps the counter; a period
firing at the limit starts no burst, turns auto-mode Off and resets the counter
to 0. -/
theorem period_during_burst (s : State) (_hrun : s.m_auto_mode ≠ 0)
    (hadv : s.m_advertising ≠ 0) :
    burstStarts (advertising_start_timer_handler NUM_ITERATIONS s) = burstStarts s
      ∧ (advertising_start_timer_handler NUM_ITERATIONS s).m_advertising = s.m_advertising
      ∧ (s.m_iterations < NUM_ITERATIONS →
          advertising_start_timer_handler NUM_ITERATIONS s = s)
      ∧ (NUM_ITERATIONS ≤ s.m_iterations →
          (advertising_start_timer_handler NUM_ITERATIONS s).m_iterations = 0
            ∧ (advertising_start_timer_handler NUM_ITERATIONS s).m_auto_mode = 0) := by
  rcases handler_cases NUM_ITERATIONS s with ⟨_, hidle, _⟩ | ⟨hlt, _, h⟩ | ⟨hge, h⟩
  · exact absurd hidle hadv
  · rw [h]
    exact ⟨rfl, rfl, fun _ => rfl, fun hle => absurd hlt (not_lt.mpr hle)⟩
  · rw [h]
    exact ⟨stop_auto_mode_burstStarts s, rfl, fun hlt => absurd hlt hge, fun _ => ⟨rfl, rfl⟩⟩

/-- Witness of C7, amended: the second period firing of a run arrives while
the first burst is still Advertising. -/
theorem period_during_burst_witness :
    (run NUM_ITERATIONS (main_init 0) [Event.toggle, Event.auto_mode_timer]).m_auto_mode ≠ 0
      ∧ (run NUM_ITERATIONS (main_init 0)
          [Event.toggle, Event.auto_mode_timer]).m_advertising ≠ 0
      ∧ advertising_start_timer_handler NUM_ITERATIONS
          (run NUM_ITERATIONS (main_init 0) [Event.toggle, Event.auto_mode_timer])
        = run NUM_ITERATIONS (main_init 0) [Event.toggle, Event.auto_mode_timer] :=
  ⟨by decide, by decide,
   (period_during_burst (run NUM_ITERATIONS (main_init 0) [Event.toggle, Event.auto_mode_timer])
      (by decide) (by decide)).2.2.1 (by decide)⟩

/-! ## The identities on air -/

/-- Calls that are no radio start add nothing to the identities on air. -/
theorem advertisedFrom_quiet (ds : List Call) (cur : List Nat)
    (h : ∀ c ∈ ds, c.isAdvStart = false) : advertisedFrom cur ds = [] := by
  induction ds generalizing cur with
  | nil => rfl
  | cons c ds ih =>
    have hds : ∀ x ∈ ds, x.isAdvStart = false := fun x hx => h x (List.mem_cons_of_mem c hx)
    have hc := h c (List.mem_cons_self c ds)
    cases c <;> simp_all [advertisedFrom, Call.isAdvStart]

/-- Appending calls that are no radio start keeps the identities on air. -/
theorem advertisedFrom_append_quiet (cs ds : List Call) (cur : List Nat)
    (h : ∀ c ∈ ds, c.isAdvStart = false) :
    advertisedFrom cur (cs ++ ds) = advertisedFrom cur cs := by
  induction cs generalizing cur with
  | nil => exact advertisedFrom_quiet ds cur h
  | cons c cs ih => cases c <;> simp [advertisedFrom, ih]

/-- Appending the calls of a burst start adds the minor field of the new
advertising data. -/
theorem advertisedFrom_append_burst (cs : List Call) (cur : List Nat) (a ci : Nat)
    (d : List Nat) (p : Option ble_gap_adv_params_t) (i : bsp_indication_t)
    (t : app_timer_id) (m : Nat) :
    advertisedFrom cur (cs ++ [Call.sd_ble_gap_addr_set a, Call.ble_advdata_set ci d,
        Call.sd_ble_gap_adv_start p, Call.bsp_indication_set i, Call.app_timer_start t m])
      = advertisedFrom cur cs ++ [decodeMinor d] := by
  induction cs generalizing cur with
  | nil => simp [advertisedFrom]
  | cons c cs ih => cases c <;> simp [advertisedFrom, ih]

/-- The payload written by a burst start. -/
theorem startBurst_m_beacon_info (s : State) :
    (startBurst s).m_beacon_info
      = (s.m_beacon_info.set MINOR_OFFSET_IN_BEACON_INFO
          (((rotate s.m_minor >>> 16) &&& 0xff) % 256)).set
          (MINOR_OFFSET_IN_BEACON_INFO + 1) ((rotate s.m_minor &&& 0xff) % 256) := by
  rw [startBurst_eq]; rfl

/-- A burst start adds the minor field of its payload to the identities on air. -/
theorem startBurst_advertised (s : State) :
    advertised (startBurst s) = advertised s ++ [decodeMinor (startBurst s).m_beacon_info] := by
  rw [startBurst_m_beacon_info, startBurst_eq]
  simp only [advertised, advertising_start, advertising_init, app_timer_start, call,
    List.append_assoc, List.singleton_append]
  exact advertisedFrom_append_burst _ _ _ _ _ _ _ _ _


/-- Decoding the minor field after the two writes of `advertising_init` gives
the low byte of a 16-bit identity. -/
theorem decodeMinor_set_set (b : List Nat) (m : Nat) (hlen : b.length = 23)
    (hm : m < 65536) :
    decodeMinor ((b.set MINOR_OFFSET_IN_BEACON_INFO (((m >>> 16) &&& 0xff) % 256)).set
      (MINOR_OFFSET_IN_BEACON_INFO + 1) ((m &&& 0xff) % 256)) = m % 256 := by
  show ((b.set 20 _).set 21 _).getD 20 0 * 256 + ((b.set 20 _).set 21 _).getD 21 0 = _
  rw [getD_set_set_hi _ _ _ hlen, getD_set_set_lo _ _ _ hlen, hi_byte_zero m hm, lo_byte_mod]
  omega

/-- Stopping auto-mode keeps the identities on air. -/
theorem stop_auto_mode_advertised (s : State) :
    advertised (stop_auto_mode s) = advertised s := by
  simp only [advertised, stop_auto_mode, app_timer_stop, call, List.append_assoc,
    List.singleton_append]
  exact advertisedFrom_append_quiet _ _ _ (by decide)

/-- The burst-timer handler keeps the identities on air. -/
theorem stop_handler_advertised (n : Int) (s : State) :
    advertised (step n s Event.advertising_stop_timer) = advertised s := by
  simp only [advertised, step, advertising_stop_timer_handler, advertising_stop, call,
    List.append_assoc, List.singleton_append]
  exact advertisedFrom_append_quiet _ _ _ (by decide)

/-- After `k` cycles from a state with an Idle burst, room for `k` iterations
and room for `k` rotations below `MAX_MINOR`, the identity has advanced by `k`
and the bursts have advertised the `k` identities after the old one, in
order. -/
theorem run_cycles_minor (n : Int) (k : Nat) (s : State) (hidle : s.m_advertising = 0)
    (hroom : s.m_iterations + (k : Int) ≤ n) (hmax : s.m_minor + k ≤ MAX_MINOR)
    (hlen : s.m_beacon_info.length = 23) :
    (run n s (cycles k)).m_minor = s.m_minor + k
      ∧ (run n s (cycles k)).m_beacon_info.length = 23
      ∧ advertised (run n s (cycles k)) = advertised s ++ List.range' (s.m_minor + 1) k := by
  induction k generalizing s with
  | zero => exact ⟨rfl, hlen, by simp [cycles, run]⟩
  | succ k ih =>
    have hmax20 : s.m_minor + (k + 1) ≤ 20 := hmax
    have hlt : s.m_iterations < n := by push_cast at hroom; omega
    have hrun : run n s (cycles (k + 1))
        = run n (step n (startBurst s) Event.advertising_stop_timer) (cycles k) := by
      show run n (step n (step n s Event.auto_mode_timer) Event.advertising_stop_timer)
        (cycles k) = _
      have hs : step n s Event.auto_mode_timer = startBurst s := handler_start n s hlt hidle
      rw [hs]
    have hrot : rotate s.m_minor = s.m_minor + 1 := by
      have hmod : (s.m_minor + 1) % 65536 = s.m_minor + 1 := by omega
      unfold rotate
      rw [hmod]
      simp only [MAX_MINOR]
      split <;> omega
    have hit : (step n (startBurst s) Event.advertising_stop_timer).m_iterations
        = s.m_iterations + 1 := startBurst_m_iterations s
    have hminor : (step n (startBurst s) Event.advertising_stop_timer).m_minor
        = s.m_minor + 1 := by
      rw [← hrot]; exact startBurst_m_minor s
    have hb : (step n (startBurst s) Event.advertising_stop_timer).m_beacon_info
        = (startBurst s).m_beacon_info := rfl
    have hlen' : (startBurst s).m_beacon_info.length = 23 := by
      rw [startBurst_m_beacon_info]; simp [hlen]
    have hdec : decodeMinor (startBurst s).m_beacon_info = s.m_minor + 1 := by
      rw [startBurst_m_beacon_info, hrot, decodeMinor_set_set _ _ hlen (by omega)]
      omega
    have hadv : advertised (step n (startBurst s) Event.advertising_stop_timer)
        = advertised s ++ [s.m_minor + 1] := by
      rw [stop_handler_advertised, startBurst_advertised, hdec]
    obtain ⟨h1, h2, h3⟩ := ih (step n (startBurst s) Event.advertising_stop_timer) rfl
      (by rw [hit]; push_cast at hroom; omega) (by rw [hminor]; show _ ≤ 20; omega)
      (by rw [hb]; exact hlen')
    rw [hrun]
    refine ⟨?_, h2, ?_⟩
    · rw [h1, hminor]; omega
    · rw [h3, hadv, hminor, List.append_assoc]
      rfl

/-! ## C8: a manual stop does not touch the burst -/

/-- C8. In a state with auto-mode Running and the burst Advertising, the Mode
Toggle event runs `stop_auto_mode`: it leaves `m_advertising` unchanged and its
only collaborator calls are the indicator off and the period-timer stop, so no
radio stop is issued.  For every state `t` and every event `e` other than the
burst-timer expiry, no radio stop is issued and an Advertising burst state is
left as it is; the burst-timer handler sets the burst state to Idle and issues
one radio stop. -/
theorem manual_stop_keeps_burst (num_iterations : Int) (s t : State) (e : Event)
    (hrun : s.m_auto_mode ≠ 0) (_hadv : s.m_advertising ≠ 0)
    (hne : e ≠ Event.advertising_stop_timer) :
    (bsp_event_callback bsp_event_t.BSP_EVENT_KEY_0 s = stop_auto_mode s
        ∧ (bsp_event_callback bsp_event_t.BSP_EVENT_KEY_0 s).m_advertising = s.m_advertising
        ∧ (bsp_event_callback bsp_event_t.BSP_EVENT_KEY_0 s).calls
          = s.calls ++ [Call.bsp_board_led_off 1,
              Call.app_timer_stop app_timer_id.m_auto_mode_timer]
        ∧ burstStops (bsp_event_callback bsp_event_t.BSP_EVENT_KEY_0 s) = burstStops s)
      ∧ (burstStops (step num_iterations t e) = burstStops t
        ∧ (t.m_advertising ≠ 0 → (step num_iterations t e).m_advertising = t.m_advertising))
      ∧ ((step num_iterations t Event.advertising_stop_timer).m_advertising = 0
        ∧ burstStops (step num_iterations t Event.advertising_stop_timer)
          = burstStops t + 1) := by
  have hcb : bsp_event_callback bsp_event_t.BSP_EVENT_KEY_0 s = stop_auto_mode s := by
    simp [bsp_event_callback, hrun]
  refine ⟨⟨hcb, ?_, ?_, ?_⟩, ⟨?_, ?_⟩, ⟨rfl, stop_handler_burstStops _ t⟩⟩
  · rw [hcb]; rfl
  · rw [hcb]
    simp [stop_auto_mode, app_timer_stop, call]
  · rw [hcb]; exact stop_auto_mode_burstStops s
  · cases e with
    | bsp b => exact bsp_burstStops b t
    | auto_mode_timer =>
      show burstStops (advertising_start_timer_handler num_iterations t) = _
      rcases handler_cases num_iterations t with ⟨_, _, h⟩ | ⟨_, _, h⟩ | ⟨_, h⟩
      · rw [h]; exact startBurst_burstStops t
      · rw [h]
      · rw [h]; exact stop_auto_mode_burstStops t
    | advertising_stop_timer => exact absurd rfl hne
  · intro hadv
    exact advertising_kept num_iterations t e hne hadv

/-- Witness of C8: a Mode Toggle during the first burst of a run. -/
theorem manual_stop_keeps_burst_witness :
    (run NUM_ITERATIONS (main_init 0) [Event.toggle, Event.auto_mode_timer]).m_auto_mode ≠ 0
      ∧ (run NUM_ITERATIONS (main_init 0)
          [Event.toggle, Event.auto_mode_timer]).m_advertising ≠ 0
      ∧ (bsp_event_callback bsp_event_t.BSP_EVENT_KEY_0
          (run NUM_ITERATIONS (main_init 0) [Event.toggle, Event.auto_mode_timer])).m_advertising
        = (run NUM_ITERATIONS (main_init 0)
            [Event.toggle, Event.auto_mode_timer]).m_advertising :=
  ⟨by decide, by decide,
   (manual_stop_keeps_burst NUM_ITERATIONS
      (run NUM_ITERATIONS (main_init 0) [Event.toggle, Event.auto_mode_timer])
      (run NUM_ITERATIONS (main_init 0) [Event.toggle, Event.auto_mode_timer])
      Event.toggle (by decide) (by decide) (by decide)).1.2.1⟩

/-! ## C9: double toggle -/

/-- C9. From a state with auto-mode Off, the first Mode Toggle gives auto-mode
Running with counter 0 and the second gives auto-mode Off with counter 0. -/
theorem double_toggle (s : State) (hoff : s.m_auto_mode = 0) :
    ((bsp_event_callback bsp_event_t.BSP_EVENT_KEY_0 s).m_auto_mode = 1
        ∧ (bsp_event_callback bsp_event_t.BSP_EVENT_KEY_0 s).m_iterations = 0)
      ∧ ((bsp_event_callback bsp_event_t.BSP_EVENT_KEY_0
            (bsp_event_callback bsp_event_t.BSP_EVENT_KEY_0 s)).m_auto_mode = 0
        ∧ (bsp_event_callback bsp_event_t.BSP_EVENT_KEY_0
            (bsp_event_callback bsp_event_t.BSP_EVENT_KEY_0 s)).m_iterations = 0) := by
  have h1 : bsp_event_callback bsp_event_t.BSP_EVENT_KEY_0 s = start_auto_mode s := by
    simp [bsp_event_callback, hoff]
  have hon : (start_auto_mode s).m_auto_mode ≠ 0 := by
    show (1 : Nat) ≠ 0
    decide
  have h2 : bsp_event_callback bsp_event_t.BSP_EVENT_KEY_0 (start_auto_mode s)
      = stop_auto_mode (start_auto_mode s) := by
    simp [bsp_event_callback, hon]
  rw [h1, h2]
  exact ⟨⟨rfl, rfl⟩, rfl, rfl⟩

/-- Witness of C9 at the state after boot. -/
theorem double_toggle_witness :
    (main_init 0).m_auto_mode = 0
      ∧ ((bsp_event_callback bsp_event_t.BSP_EVENT_KEY_0 (main_init 0)).m_auto_mode = 1
        ∧ (bsp_event_callback bsp_event_t.BSP_EVENT_KEY_0 (main_init 0)).m_iterations = 0)
      ∧ ((bsp_event_callback bsp_event_t.BSP_EVENT_KEY_0
            (bsp_event_callback bsp_event_t.BSP_EVENT_KEY_0 (main_init 0))).m_auto_mode = 0
        ∧ (bsp_event_callback bsp_event_t.BSP_EVENT_KEY_0
            (bsp_event_callback bsp_event_t.BSP_EVENT_KEY_0 (main_init 0))).m_iterations = 0) :=
  ⟨by decide, double_toggle (main_init 0) (by decide)⟩

/-! ## C10: the three-iteration scenario -/

/-- C10, as stated, fails: with the limit 3, the three bursts after boot and a
Mode Toggle advertise the identities 1, 2, 3, not `MIN_MINOR + 1`,
`MIN_MINOR + 2`, `MIN_MINOR + 3`. -/
theorem three_iterations_counterexample :
    burstStarts (run 3 (main_init 0) (Event.toggle :: cycles 3)) = 3
      ∧ advertised (run 3 (main_init 0) (Event.toggle :: cycles 3)) = [1, 2, 3]
      ∧ advertised (run 3 (main_init 0) (Event.toggle :: cycles 3))
        ≠ [MIN_MINOR + 1, MIN_MINOR + 2, MIN_MINOR + 3] := by
  decide

/-- The state after boot and a Mode Toggle. -/
theorem toggle_after_boot (n : Int) (hw_addr : Nat) :
    step n (main_init hw_addr) Event.toggle = start_auto_mode (main_init hw_addr) := rfl

/-- The scenario of C10 up to the third burst-timer expiry, for any device
address and any limit of at least 3. -/
theorem three_cycles (n : Int) (hn : 3 ≤ n) (hw_addr : Nat) :
    (run n (main_init hw_addr) (Event.toggle :: cycles 3)).m_advertising = 0
      ∧ (run n (main_init hw_addr) (Event.toggle :: cycles 3)).m_iterations = 3
      ∧ (run n (main_init hw_addr) (Event.toggle :: cycles 3)).m_auto_mode = 1
      ∧ burstStarts (run n (main_init hw_addr) (Event.toggle :: cycles 3)) = 3
      ∧ advertised (run n (main_init hw_addr) (Event.toggle :: cycles 3)) = [1, 2, 3] := by
  have hrun : run n (main_init hw_addr) (Event.toggle :: cycles 3)
      = run n (start_auto_mode (main_init hw_addr)) (cycles 3) := rfl
  obtain ⟨h1, h2, h3, h4⟩ := run_cycles n 3 (start_auto_mode (main_init hw_addr)) rfl
    (by show (0 : Int) + 3 ≤ n; omega)
  obtain ⟨_, _, h7⟩ := run_cycles_minor n 3 (start_auto_mode (main_init hw_addr)) rfl
    (by show (0 : Int) + 3 ≤ n; omega) (by show 0 + 3 ≤ 20; omega) rfl
  rw [hrun]
  refine ⟨h1, ?_, ?_, ?_, ?_⟩
  · rw [h2]; rfl
  · rw [h3]; rfl
  · rw [h4]; rfl
  · rw [h7]; rfl

/-- C10, amended. With the limit 3, for every device address: after boot and
one Mode Toggle, three period firings with a burst-timer expiry after each
produce exactly 3 burst starts, advertising the identities `MIN_MINOR`,
`MIN_MINOR + 1`, `MIN_MINOR + 2` (1, 2, 3) in that order, with auto-mode still
Running; the next period firing starts no burst and turns auto-mode Off with
the counter back at 0. -/
theorem three_iterations (hw_addr : Nat) :
    (burstStarts (run 3 (main_init hw_addr) (Event.toggle :: cycles 3)) = 3
        ∧ advertised (run 3 (main_init hw_addr) (Event.toggle :: cycles 3))
          = [MIN_MINOR, MIN_MINOR + 1, MIN_MINOR + 2]
        ∧ (run 3 (main_init hw_addr) (Event.toggle :: cycles 3)).m_auto_mode = 1)
      ∧ (burstStarts (run 3 (main_init hw_addr)
            (Event.toggle :: (cycles 3 ++ [Event.auto_mode_timer]))) = 3
        ∧ advertised (run 3 (main_init hw_addr)
            (Event.toggle :: (cycles 3 ++ [Event.auto_mode_timer])))
          = [MIN_MINOR, MIN_MINOR + 1, MIN_MINOR + 2]
        ∧ (run 3 (main_init hw_addr)
            (Event.toggle :: (cycles 3 ++ [Event.auto_mode_timer]))).m_auto_mode = 0
        ∧ (run 3 (main_init hw_addr)
            (Event.toggle :: (cycles 3 ++ [Event.auto_mode_timer]))).m_iterations = 0) := by
  obtain ⟨_, h2, h3, h4, h5⟩ := three_cycles 3 (le_refl _) hw_addr
  have hge : ¬ (run 3 (main_init hw_addr) (Event.toggle :: cycles 3)).m_iterations < 3 := by
    rw [h2]; decide
  have hrun : run 3 (main_init hw_addr) (Event.toggle :: (cycles 3 ++ [Event.auto_mode_timer]))
      = stop_auto_mode (run 3 (main_init hw_addr) (Event.toggle :: cycles 3)) := by
    have happ : Event.toggle :: (cycles 3 ++ [Event.auto_mode_timer])
        = (Event.toggle :: cycles 3) ++ [Event.auto_mode_timer] := rfl
    rw [happ, run_append]
    exact handler_stop 3 _ hge
  refine ⟨⟨h4, h5, h3⟩, ?_, ?_, ?_, ?_⟩
  · rw [hrun, stop_auto_mode_burstStarts, h4]
  · rw [hrun, stop_auto_mode_advertised, h5]
    rfl
  · rw [hrun]; rfl
  · rw [hrun]; rfl

/-! ## C11: starting auto-mode resets the counter -/

/-- C11. For every prior state, `start_auto_mode` yields a state with
`m_iterations = 0` and auto-mode Running (`m_auto_mode = 1`); so does a Mode
Toggle delivered while auto-mode is Off. -/
theorem start_resets_counter (s : State) :
    ((start_auto_mode s).m_iterations = 0 ∧ (start_auto_mode s).m_auto_mode = 1)
      ∧ ((bsp_event_callback bsp_event_t.BSP_EVENT_KEY_0 { s with m_auto_mode := 0 }).m_iterations
          = 0
        ∧ (bsp_event_callback bsp_event_t.BSP_EVENT_KEY_0 { s with m_auto_mode := 0 }).m_auto_mode
          = 1) :=
  ⟨⟨rfl, rfl⟩, rfl, rfl⟩

/-! ## C14: bound of the iteration counter -/

/-- One event keeps the counter between 0 and a non-negative limit. -/
theorem iterations_step (n : Int) (hn : 0 ≤ n) (s : State) (e : Event)
    (h : 0 ≤ s.m_iterations ∧ s.m_iterations ≤ n) :
    0 ≤ (step n s e).m_iterations ∧ (step n s e).m_iterations ≤ n := by
  cases e with
  | bsp b =>
    cases b with
    | BSP_EVENT_KEY_0 =>
      show 0 ≤ (bsp_event_callback bsp_event_t.BSP_EVENT_KEY_0 s).m_iterations
        ∧ (bsp_event_callback bsp_event_t.BSP_EVENT_KEY_0 s).m_iterations ≤ n
      by_cases hm : s.m_auto_mode = 0
      · have h0 : (bsp_event_callback bsp_event_t.BSP_EVENT_KEY_0 s).m_iterations = 0 := by
          simp [bsp_event_callback, hm]; rfl
        rw [h0]; exact ⟨le_refl _, hn⟩
      · have h0 : (bsp_event_callback bsp_event_t.BSP_EVENT_KEY_0 s).m_iterations = 0 := by
          simp [bsp_event_callback, hm]; rfl
        rw [h0]; exact ⟨le_refl _, hn⟩
    | other c => exact h
  | auto_mode_timer =>
    show 0 ≤ (advertising_start_timer_handler n s).m_iterations
      ∧ (advertising_start_timer_handler n s).m_iterations ≤ n
    rcases handler_cases n s with ⟨hlt, _, hs⟩ | ⟨_, _, hs⟩ | ⟨_, hs⟩
    · rw [hs, startBurst_m_iterations]
      omega
    · rw [hs]; exact h
    · rw [hs]
      exact ⟨le_refl _, hn⟩
  | advertising_stop_timer => exact h

/-- A run keeps the counter between 0 and a non-negative limit. -/
theorem iterations_run (n : Int) (hn : 0 ≤ n) (es : List Event) (s : State)
    (h : 0 ≤ s.m_iterations ∧ s.m_iterations ≤ n) :
    0 ≤ (run n s es).m_iterations ∧ (run n s es).m_iterations ≤ n := by
  induction es generalizing s with
  | nil => exact h
  | cons e es ih => exact ih (step n s e) (iterations_step n hn s e h)

/-- C14. In every state reachable from the state after boot by any sequence
of Mode Toggle events, period-timer firings and burst-timer expiries,
`0 ≤ m_iterations ≤ NUM_ITERATIONS = 100`; the counter therefore fits a C `int`
(it stays below `2 ^ 31`). -/
theorem iterations_bound (hw_addr : Nat) (es : List Event) :
    0 ≤ (run NUM_ITERATIONS (main_init hw_addr) es).m_iterations
      ∧ (run NUM_ITERATIONS (main_init hw_addr) es).m_iterations ≤ NUM_ITERATIONS
      ∧ NUM_ITERATIONS = 100
      ∧ (run NUM_ITERATIONS (main_init hw_addr) es).m_iterations < 2 ^ 31 := by
  have h := iterations_run NUM_ITERATIONS (by decide) es (main_init hw_addr)
    ⟨le_refl _, by show (0 : Int) ≤ 100; decide⟩
  have h100 : NUM_ITERATIONS = 100 := rfl
  refine ⟨h.1, h.2, h100, ?_⟩
  have h2 := h.2
  rw [h100] at h2
  omega

/-! ## C16: the high byte of the minor field -/

/-- C16. For every 16-bit value of `m_minor` and a payload of 23 bytes,
`advertising_init` writes 0 to byte 20 and `m_minor % 256` to byte 21; the
big-endian decoding of the minor field is `m_minor % 256`, and it reproduces
`m_minor` exactly when `m_minor < 256`. -/
theorem high_minor_byte_zero (s : State) (hm : s.m_minor < 65536)
    (hlen : s.m_beacon_info.length = APP_BEACON_INFO_LENGTH) :
    (advertising_init s).m_beacon_info.getD 20 0 = 0
      ∧ (advertising_init s).m_beacon_info.getD 21 0 = s.m_minor % 256
      ∧ decodeMinor (advertising_init s).m_beacon_info = s.m_minor % 256
      ∧ (decodeMinor (advertising_init s).m_beacon_info = s.m_minor ↔ s.m_minor < 256) := by
  have hlen23 : s.m_beacon_info.length = 23 := hlen
  have h20 : (advertising_init s).m_beacon_info.getD 20 0 = 0 := by
    rw [advertising_init_beacon_info]
    show ((s.m_beacon_info.set 20 _).set 21 _).getD 20 0 = 0
    rw [getD_set_set_hi _ _ _ hlen23, hi_byte_zero _ hm]
  have h21 : (advertising_init s).m_beacon_info.getD 21 0 = s.m_minor % 256 := by
    rw [advertising_init_beacon_info]
    show ((s.m_beacon_info.set 20 _).set 21 _).getD 21 0 = _
    rw [getD_set_set_lo _ _ _ hlen23, lo_byte_mod]
  have hd : decodeMinor (advertising_init s).m_beacon_info = s.m_minor % 256 := by
    rw [advertising_init_beacon_info]
    exact decodeMinor_set_set _ _ hlen23 hm
  refine ⟨h20, h21, hd, ?_⟩
  rw [hd]
  constructor
  · intro h; omega
  · intro h; omega

/-- Witness of C16 at the identity 0x1234: the decoded minor field is 0x34. -/
theorem high_minor_byte_zero_witness :
    (advertising_init { staticInit with m_minor := 0x1234 }).m_beacon_info.getD 20 0 = 0
      ∧ (advertising_init { staticInit with m_minor := 0x1234 }).m_beacon_info.getD 21 0
        = 0x1234 % 256
      ∧ decodeMinor (advertising_init { staticInit with m_minor := 0x1234 }).m_beacon_info
        = 0x1234 % 256
      ∧ (decodeMinor (advertising_init { staticInit with m_minor := 0x1234 }).m_beacon_info
          = 0x1234 ↔ 0x1234 < 256) :=
  high_minor_byte_zero { staticInit with m_minor := 0x1234 } (by decide) (by decide)

/-! ## C18: the identity survives mode changes -/

/-- C18. For every state, `start_auto_mode`, `stop_auto_mode` and the
burst-timer handler leave `m_minor` and `m_beacon_info` unchanged; hence, for
any positive limit, the first burst of a new auto-mode run advertises the
rotation of the identity the previous run stopped at, not `MIN_MINOR`. -/
theorem identity_survives_mode_changes (s : State) :
    ((start_auto_mode s).m_minor = s.m_minor
        ∧ (start_auto_mode s).m_beacon_info = s.m_beacon_info)
      ∧ ((stop_auto_mode s).m_minor = s.m_minor
        ∧ (stop_auto_mode s).m_beacon_info = s.m_beacon_info)
      ∧ ((advertising_stop_timer_handler s).m_minor = s.m_minor
        ∧ (advertising_stop_timer_handler s).m_beacon_info = s.m_beacon_info)
      ∧ (advertising_start_timer_handler NUM_ITERATIONS
          (start_auto_mode (stop_auto_mode (advertising_stop_timer_handler s)))).m_minor
        = rotate s.m_minor := by
  refine ⟨⟨rfl, rfl⟩, ⟨rfl, rfl⟩, ⟨rfl, rfl⟩, ?_⟩
  rw [handler_start NUM_ITERATIONS _ (by show (0 : Int) < 100; decide) rfl, startBurst_m_minor]
  rfl

/-! ## C17: every advertised identity is in range -/

/-- One event keeps an identity that is in range in range. -/
theorem minor_in_range_step (n : Int) (s : State) (e : Event)
    (h : MIN_MINOR ≤ s.m_minor ∧ s.m_minor ≤ MAX_MINOR) :
    MIN_MINOR ≤ (step n s e).m_minor ∧ (step n s e).m_minor ≤ MAX_MINOR := by
  cases e with
  | bsp b =>
    show MIN_MINOR ≤ (bsp_event_callback b s).m_minor
      ∧ (bsp_event_callback b s).m_minor ≤ MAX_MINOR
    rw [bsp_m_minor]; exact h
  | auto_mode_timer =>
    show MIN_MINOR ≤ (advertising_start_timer_handler n s).m_minor
      ∧ (advertising_start_timer_handler n s).m_minor ≤ MAX_MINOR
    rcases handler_cases n s with ⟨_, _, hs⟩ | ⟨_, _, hs⟩ | ⟨_, hs⟩
    · rw [hs, startBurst_m_minor]
      exact rotate_range s.m_minor h.2
    · rw [hs]; exact h
    · rw [hs]; exact h
  | advertising_stop_timer => exact h

/-- A run keeps an identity that is in range in range. -/
theorem minor_in_range_run (n : Int) (es : List Event) (s : State)
    (h : MIN_MINOR ≤ s.m_minor ∧ s.m_minor ≤ MAX_MINOR) :
    MIN_MINOR ≤ (run n s es).m_minor ∧ (run n s es).m_minor ≤ MAX_MINOR := by
  induction es generalizing s with
  | nil => exact h
  | cons e es ih => exact ih (step n s e) (minor_in_range_step n s e h)

/-- C17. Along every event sequence from the state after boot: when the event
`e` delivered after the events `pre` starts a burst, the identity `m_minor` of
that burst lies in `[MIN_MINOR, MAX_MINOR] = [1, 20]`, and it stays in that
range after any further events `post`. -/
theorem advertised_identity_in_range (num_iterations : Int) (hw_addr : Nat)
    (pre : List Event) (e : Event) (post : List Event)
    (hstart : burstStarts (run num_iterations (main_init hw_addr) pre)
      < burstStarts (step num_iterations (run num_iterations (main_init hw_addr) pre) e)) :
    (MIN_MINOR ≤ (step num_iterations (run num_iterations (main_init hw_addr) pre) e).m_minor
        ∧ (step num_iterations (run num_iterations (main_init hw_addr) pre) e).m_minor
          ≤ MAX_MINOR)
      ∧ (MIN_MINOR ≤ (run num_iterations
            (step num_iterations (run num_iterations (main_init hw_addr) pre) e) post).m_minor
        ∧ (run num_iterations
            (step num_iterations (run num_iterations (main_init hw_addr) pre) e) post).m_minor
          ≤ MAX_MINOR)
      ∧ (MIN_MINOR = 1 ∧ MAX_MINOR = 20) := by
  have hinv : MinorInv (step num_iterations (run num_iterations (main_init hw_addr) pre) e) :=
    minorInv_step _ _ e (minorInv_run _ pre _ (minorInv_main_init hw_addr))
  have hin : MIN_MINOR ≤ (step num_iterations
        (run num_iterations (main_init hw_addr) pre) e).m_minor
      ∧ (step num_iterations (run num_iterations (main_init hw_addr) pre) e).m_minor
        ≤ MAX_MINOR := by
    rcases hinv with ⟨h1, h2, _⟩ | ⟨_, h0⟩
    · exact ⟨h1, h2⟩
    · rw [h0] at hstart
      exact absurd hstart (Nat.not_lt_zero _)
  exact ⟨hin, minor_in_range_run _ post _ hin, rfl, rfl⟩

/-- Witness of C17: the first burst after boot, followed by a manual stop, a
restart and a second burst. -/
theorem advertised_identity_in_range_witness :
    burstStarts (run NUM_ITERATIONS (main_init 0) [Event.toggle])
        < burstStarts (step NUM_ITERATIONS (run NUM_ITERATIONS (main_init 0) [Event.toggle])
            Event.auto_mode_timer)
      ∧ (step NUM_ITERATIONS (run NUM_ITERATIONS (main_init 0) [Event.toggle])
          Event.auto_mode_timer).m_minor = 1
      ∧ (MIN_MINOR ≤ (run NUM_ITERATIONS
            (step NUM_ITERATIONS (run NUM_ITERATIONS (main_init 0) [Event.toggle])
              Event.auto_mode_timer)
            [Event.advertising_stop_timer, Event.toggle, Event.toggle,
              Event.auto_mode_timer]).m_minor
        ∧ (run NUM_ITERATIONS
            (step NUM_ITERATIONS (run NUM_ITERATIONS (main_init 0) [Event.toggle])
              Event.auto_mode_timer)
            [Event.advertising_stop_timer, Event.toggle, Event.toggle,
              Event.auto_mode_timer]).m_minor ≤ MAX_MINOR) :=
  ⟨by decide, by decide,
   (advertised_identity_in_range NUM_ITERATIONS 0 [Event.toggle] Event.auto_mode_timer
      [Event.advertising_stop_timer, Event.toggle, Event.toggle, Event.auto_mode_timer]
      (by decide)).2.1⟩

/-! ## C15: Off implies counter zero -/

/-- One event, a period firing only while the period timer runs, keeps
`OffInv`. -/
theorem offInv_step (n : Int) (s : State) (e : Event)
    (hv : e = Event.auto_mode_timer → s.auto_mode_timer_running = true)
    (hinv : OffInv s) : OffInv (step n s e) := by
  obtain ⟨htimer, hoff⟩ := hinv
  cases e with
  | bsp b =>
    cases b with
    | BSP_EVENT_KEY_0 =>
      show OffInv (bsp_event_callback bsp_event_t.BSP_EVENT_KEY_0 s)
      by_cases hm : s.m_auto_mode = 0
      · have hs : bsp_event_callback bsp_event_t.BSP_EVENT_KEY_0 s = start_auto_mode s := by
          simp [bsp_event_callback, hm]
        rw [hs]
        refine ⟨?_, ?_⟩
        · show (true = true ↔ (1 : Nat) ≠ 0)
          simp
        · intro h
          have h1 : (start_auto_mode s).m_auto_mode = 1 := rfl
          rw [h1] at h
          exact absurd h (by decide)
      · have hs : bsp_event_callback bsp_event_t.BSP_EVENT_KEY_0 s = stop_auto_mode s := by
          simp [bsp_event_callback, hm]
        rw [hs]
        refine ⟨?_, fun _ => rfl⟩
        show (false = true ↔ (0 : Nat) ≠ 0)
        simp
    | other c => exact ⟨htimer, hoff⟩
  | auto_mode_timer =>
    show OffInv (advertising_start_timer_handler n s)
    have hon : s.m_auto_mode ≠ 0 := htimer.mp (hv rfl)
    rcases handler_cases n s with ⟨_, _, hs⟩ | ⟨_, _, hs⟩ | ⟨_, hs⟩
    · rw [hs]
      refine ⟨?_, ?_⟩
      · rw [startBurst_timer, startBurst_m_auto_mode]; exact htimer
      · intro h
        rw [startBurst_m_auto_mode] at h
        exact absurd h hon
    · rw [hs]; exact ⟨htimer, hoff⟩
    · rw [hs]
      refine ⟨?_, fun _ => rfl⟩
      show (false = true ↔ (0 : Nat) ≠ 0)
      simp
  | advertising_stop_timer => exact ⟨htimer, hoff⟩

/-- A run that respects the period timer keeps `OffInv`. -/
theorem offInv_run (n : Int) (es : List Event) (s : State)
    (hv : periodTimerRespected n s es) (hinv : OffInv s) : OffInv (run n s es) := by
  induction es generalizing s with
  | nil => exact hinv
  | cons e es ih =>
    obtain ⟨hv1, hv2⟩ := hv
    exact ih (step n s e) hv2 (offInv_step n s e hv1 hinv)

/-- A period firing delivered while auto-mode is Off (period timer stopped)
would start a burst and leave the counter at 1 with auto-mode Off. -/
theorem off_counter_without_timer :
    (run NUM_ITERATIONS (main_init 0) [Event.auto_mode_timer]).m_auto_mode = 0
      ∧ (run NUM_ITERATIONS (main_init 0) [Event.auto_mode_timer]).m_iterations = 1
      ∧ ¬ periodTimerRespected NUM_ITERATIONS (main_init 0) [Event.auto_mode_timer] := by
  decide

/-- C15. In every state reachable from the state after boot by a sequence of
events in which period firings are delivered only while the period timer runs:
the period timer runs exactly when auto-mode is Running (`m_auto_mode ≠ 0`), and
auto-mode Off (`m_auto_mode = 0`) implies `m_iterations = 0`. -/
theorem off_implies_counter_zero (num_iterations : Int) (hw_addr : Nat) (es : List Event)
    (hv : periodTimerRespected num_iterations (main_init hw_addr) es) :
    ((run num_iterations (main_init hw_addr) es).m_auto_mode = 0 →
        (run num_iterations (main_init hw_addr) es).m_iterations = 0)
      ∧ ((run num_iterations (main_init hw_addr) es).auto_mode_timer_running = true
        ↔ (run num_iterations (main_init hw_addr) es).m_auto_mode ≠ 0) := by
  have h0 : OffInv (main_init hw_addr) := by
    refine ⟨?_, fun _ => rfl⟩
    show (false = true ↔ (0 : Nat) ≠ 0)
    simp
  have h := offInv_run num_iterations es (main_init hw_addr) hv h0
  exact ⟨h.2, h.1⟩

/-- Witness of C15: a manual exit during the first burst of a run. -/
theorem off_implies_counter_zero_witness :
    periodTimerRespected NUM_ITERATIONS (main_init 0)
        [Event.toggle, Event.auto_mode_timer, Event.toggle]
      ∧ (run NUM_ITERATIONS (main_init 0)
          [Event.toggle, Event.auto_mode_timer, Event.toggle]).m_auto_mode = 0
      ∧ (run NUM_ITERATIONS (main_init 0)
          [Event.toggle, Event.auto_mode_timer, Event.toggle]).m_iterations = 0 :=
  ⟨by decide, by decide,
   (off_implies_counter_zero NUM_ITERATIONS 0
      [Event.toggle, Event.auto_mode_timer, Event.toggle] (by decide)).1 (by decide)⟩

/-! ## C13: rotation order over a run -/

/-- Starting auto-mode keeps the identities on air. -/
theorem start_auto_mode_advertised (s : State) :
    advertised (start_auto_mode s) = advertised s := by
  simp only [advertised, start_auto_mode, app_timer_start, call, List.append_assoc,
    List.singleton_append]
  exact advertisedFrom_append_quiet _ _ _ (by decide)

/-- The rotated identity follows the old one in the rotation order. -/
theorem nextIdentity_rotate (m : Nat) (h : m ≤ MAX_MINOR) : nextIdentity m (rotate m) := by
  have h20 : m ≤ 20 := h
  have hmod : (m + 1) % 65536 = m + 1 := by omega
  unfold nextIdentity rotate
  rw [hmod]
  simp only [MAX_MINOR, MIN_MINOR]
  split <;> split <;> omega

/-- A burst start keeps `RotInv`, and it advertises the new identity. -/
theorem rotInv_startBurst (s : State) (hinv : RotInv s) :
    RotInv (startBurst s)
      ∧ decodeMinor (startBurst s).m_beacon_info = (startBurst s).m_minor
      ∧ advertised (startBurst s) = advertised s ++ [(startBurst s).m_minor] := by
  obtain ⟨hlen, hmax, _, hchain, hlast⟩ := hinv
  have hr := rotate_range s.m_minor hmax
  have hr20 : rotate s.m_minor ≤ 20 := hr.2
  have hlen2 : (startBurst s).m_beacon_info.length = 23 := by
    rw [startBurst_m_beacon_info]; simp [hlen]
  have hdec : decodeMinor (startBurst s).m_beacon_info = rotate s.m_minor := by
    rw [startBurst_m_beacon_info, decodeMinor_set_set _ _ hlen (by omega)]
    omega
  have hadv : advertised (startBurst s) = advertised s ++ [rotate s.m_minor] := by
    rw [startBurst_advertised, hdec]
  have hminor : (startBurst s).m_minor = rotate s.m_minor := startBurst_m_minor s
  refine ⟨⟨hlen2, ?_, ?_, ?_, ?_⟩, ?_, ?_⟩
  · rw [hminor]; exact hr.2
  · rw [hminor]; exact hdec
  · rw [hadv]
    refine List.Chain'.append hchain (List.chain'_singleton _) ?_
    intro x hx y hy
    have hxm : x = s.m_minor := hlast x hx
    have hy2 : y = rotate s.m_minor := by
      simp at hy
      exact hy.symm
    rw [hxm, hy2]
    exact nextIdentity_rotate s.m_minor hmax
  · intro a ha
    rw [hadv, List.getLast?_concat] at ha
    rw [hminor]
    simp at ha
    exact ha.symm
  · rw [hminor]; exact hdec
  · rw [hminor]; exact hadv

/-- One event keeps `RotInv`. -/
theorem rotInv_step (n : Int) (s : State) (e : Event) (hinv : RotInv s) :
    RotInv (step n s e) := by
  cases e with
  | bsp b =>
    cases b with
    | BSP_EVENT_KEY_0 =>
      show RotInv (bsp_event_callback bsp_event_t.BSP_EVENT_KEY_0 s)
      by_cases hm : s.m_auto_mode = 0
      · have hs : bsp_event_callback bsp_event_t.BSP_EVENT_KEY_0 s = start_auto_mode s := by
          simp [bsp_event_callback, hm]
        rw [hs]
        unfold RotInv
        rw [start_auto_mode_advertised]
        exact hinv
      · have hs : bsp_event_callback bsp_event_t.BSP_EVENT_KEY_0 s = stop_auto_mode s := by
          simp [bsp_event_callback, hm]
        rw [hs]
        unfold RotInv
        rw [stop_auto_mode_advertised]
        exact hinv
    | other c => exact hinv
  | auto_mode_timer =>
    show RotInv (advertising_start_timer_handler n s)
    rcases handler_cases n s with ⟨_, _, hs⟩ | ⟨_, _, hs⟩ | ⟨_, hs⟩
    · rw [hs]; exact (rotInv_startBurst s hinv).1
    · rw [hs]; exact hinv
    · rw [hs]
      unfold RotInv
      rw [stop_auto_mode_advertised]
      exact hinv
  | advertising_stop_timer =>
    unfold RotInv
    rw [stop_handler_advertised]
    exact hinv

/-- A run keeps `RotInv`. -/
theorem rotInv_run (n : Int) (es : List Event) (s : State) (hinv : RotInv s) :
    RotInv (run n s es) := by
  induction es generalizing s with
  | nil => exact hinv
  | cons e es ih => exact ih (step n s e) (rotInv_step n s e hinv)

/-- The state after boot satisfies `RotInv`: nothing has been advertised. -/
theorem rotInv_main_init (hw_addr : Nat) : RotInv (main_init hw_addr) := by
  have hb : (main_init hw_addr).m_beacon_info
      = (advertising_init
          (ble_stack_init hw_addr (init_bsp (timer_init staticInit)))).m_beacon_info := rfl
  have hm : (main_init hw_addr).m_minor = 0 := rfl
  have hm0 : (ble_stack_init hw_addr (init_bsp (timer_init staticInit))).m_minor = 0 := rfl
  have hb0 : (ble_stack_init hw_addr (init_bsp (timer_init staticInit))).m_beacon_info
      = m_beacon_info_init := rfl
  refine ⟨rfl, Nat.zero_le _, ?_, ?_, ?_⟩
  · rw [hb, hm, advertising_init_beacon_info, hm0, hb0]
    exact decodeMinor_set_set m_beacon_info_init 0 rfl (by decide)
  · have h : advertised (main_init hw_addr) = [] := rfl
    rw [h]; exact List.chain'_nil
  · have h : advertised (main_init hw_addr) = [] := rfl
    rw [h]
    intro a ha
    simp at ha

/-- C13. Along every event sequence from the state after boot: when the event
`e` delivered after the events `pre` starts a burst, the minor field of the
payload (bytes 20 and 21 of `m_beacon_info`, big-endian) equals the current
identity `m_minor`, that identity is appended to the identities handed to the
radio, and it follows the previously advertised identity `a` in the rotation
order (`a + 1` when `a < MAX_MINOR`, `MIN_MINOR` when `a = MAX_MINOR`); over any
run `es`, every two consecutive advertised identities are in that order. -/
theorem rotation_order (num_iterations : Int) (hw_addr : Nat) (pre : List Event) (e : Event)
    (es : List Event)
    (hstart : burstStarts (run num_iterations (main_init hw_addr) pre)
      < burstStarts (step num_iterations (run num_iterations (main_init hw_addr) pre) e)) :
    decodeMinor (step num_iterations (run num_iterations (main_init hw_addr) pre) e).m_beacon_info
        = (step num_iterations (run num_iterations (main_init hw_addr) pre) e).m_minor
      ∧ advertised (step num_iterations (run num_iterations (main_init hw_addr) pre) e)
        = advertised (run num_iterations (main_init hw_addr) pre)
          ++ [(step num_iterations (run num_iterations (main_init hw_addr) pre) e).m_minor]
      ∧ (∀ a ∈ (advertised (run num_iterations (main_init hw_addr) pre)).getLast?,
          (step num_iterations (run num_iterations (main_init hw_addr) pre) e).m_minor
            = if a < MAX_MINOR then a + 1 else MIN_MINOR)
      ∧ List.Chain' (fun a b => b = if a < MAX_MINOR then a + 1 else MIN_MINOR)
          (advertised (run num_iterations (main_init hw_addr) es)) := by
  have hpre : RotInv (run num_iterations (main_init hw_addr) pre) :=
    rotInv_run _ pre _ (rotInv_main_init hw_addr)
  have hes : RotInv (run num_iterations (main_init hw_addr) es) :=
    rotInv_run _ es _ (rotInv_main_init hw_addr)
  obtain ⟨hidle, he, _⟩ := start_only_when_idle _ _ _ hstart
  subst he
  have hlt : (run num_iterations (main_init hw_addr) pre).m_iterations < num_iterations := by
    by_contra hge
    have hs : step num_iterations (run num_iterations (main_init hw_addr) pre)
        Event.auto_mode_timer
        = stop_auto_mode (run num_iterations (main_init hw_addr) pre) := handler_stop _ _ hge
    rw [hs, stop_auto_mode_burstStarts] at hstart
    exact absurd hstart (lt_irrefl _)
  have hs : step num_iterations (run num_iterations (main_init hw_addr) pre)
      Event.auto_mode_timer = startBurst (run num_iterations (main_init hw_addr) pre) :=
    handler_start _ _ hlt hidle
  rw [hs]
  obtain ⟨_, hdec, hadv⟩ := rotInv_startBurst _ hpre
  refine ⟨hdec, hadv, ?_, hes.2.2.2.1⟩
  intro a ha
  have ham : a = (run num_iterations (main_init hw_addr) pre).m_minor := hpre.2.2.2.2 a ha
  rw [startBurst_m_minor, ham]
  exact nextIdentity_rotate _ hpre.2.1

/-- Witness of C13: the second burst of a run advertises 2 after 1. -/
theorem rotation_order_witness :
    burstStarts (run NUM_ITERATIONS (main_init 0) (Event.toggle :: cycles 1))
        < burstStarts (step NUM_ITERATIONS
            (run NUM_ITERATIONS (main_init 0) (Event.toggle :: cycles 1)) Event.auto_mode_timer)
      ∧ advertised (step NUM_ITERATIONS
            (run NUM_ITERATIONS (main_init 0) (Event.toggle :: cycles 1)) Event.auto_mode_timer)
        = advertised (run NUM_ITERATIONS (main_init 0) (Event.toggle :: cycles 1))
          ++ [(step NUM_ITERATIONS (run NUM_ITERATIONS (main_init 0) (Event.toggle :: cycles 1))
                Event.auto_mode_timer).m_minor]
      ∧ advertised (step NUM_ITERATIONS
            (run NUM_ITERATIONS (main_init 0) (Event.toggle :: cycles 1)) Event.auto_mode_timer)
        = [1, 2] :=
  ⟨by decide,
   (rotation_order NUM_ITERATIONS 0 (Event.toggle :: cycles 1) Event.auto_mode_timer
      (Event.toggle :: cycles 2) (by decide)).2.1,
   by decide⟩

/-! ## C12: the period handler against the three-case reference transition -/

/-- Outside the states the program reaches: at the identity 65535 the 16-bit
increment `m_minor++` wraps to 0, which is not above `MAX_MINOR`, so `rotate`
gives 0 where the wording of the specification gives `MIN_MINOR`.  The handler
is the only writer of `m_minor` and keeps it at most `MAX_MINOR`. -/
theorem rotate_wraps_at_65535 : rotate 65535 = 0 ∧ specRotate 65535 = MIN_MINOR := by
  decide

end Beacon
